import Mathlib

/-!
Verification of the DynSoA adaptive-layout runtime.

This file gives a shallow embedding, in Lean 4, of the parts of the DynSoA
runtime relevant to its specification: the entity store (column storage,
layout transforms, matrix blocks), the metrics pipeline (per-view EWMA and
sliding-window aggregation), the scheduler (policy predicate evaluation,
candidate scoring, latency-budget admission, cool-off, deferred learning),
learned-coefficient persistence, and the init/shutdown lifecycle.

Modelling conventions:
* C++ `double`/`float` values are embedded as `ℚ` (all arithmetic the
  claims exercise is exact decimal arithmetic).
* Byte buffers are `List Nat` (one entry per byte); a `float` read through a
  `float*` cast is the 4-byte slice at the element offset.
* `unordered_map` maps become association lists (keys are unique in the
  program); the map iteration order never matters for the proved statements.
* Fallible C++ code (a `std::stod` call that may throw) is embedded in
  `Except Unit`.
* `std::malloc` returns indeterminate contents; the initial buffer is
  therefore an explicit argument of `acquire_matrix_block`.
-/

namespace DynSoA

/-- Layout kinds, from `include/dynsoa/layout.h`:
`enum class LayoutKind : uint8_t { AoS=0, SoA=1, AoSoA=2, Matrix=3 }`. -/
inductive LayoutKind : Type
  | AoS | SoA | AoSoA | Matrix
deriving DecidableEq, Repr

/-- One column of a view (`ColumnData` in the entity store): a byte buffer and
an element size (defaulted to `sizeof(float)` = 4, as in the source). -/
structure ColumnData where
  bytes : List Nat
  elem_size : Nat := 4
deriving DecidableEq, Repr

/-- `ViewRec` from the entity store (part_001). `columns` is an association
list standing for the `unordered_map<string, ColumnData>`; `aosoa_tile` is an
`int` in C++ and is modelled as `Nat` (every tile the runtime stores is
nonnegative). -/
structure ViewRec where
  arch : Nat
  len : Nat
  columns : List (String × ColumnData)
  layout : LayoutKind := LayoutKind.SoA
  aosoa_tile : Nat := 0
deriving DecidableEq, Repr

/-- Model of `memcpy(dst.data() + start, src.data() + start, len)` for two
buffers indexed identically (as in the transforms, whose source and
destination offsets coincide): positions `[start, start+len)` of `dst` are
overwritten with the corresponding bytes of `src`. -/
def memcpyAt (dst src : List Nat) (start len : Nat) : List Nat :=
  dst.mapIdx fun i x => if start ≤ i ∧ i < start + len then src.getD i 0 else x

/-- Per-column body of `transform_soa_to_aosoa` (part_001): a fresh
zero-initialized buffer of the same size receives, for each tile index
`k < (N + T - 1) / T`, the bytes of elements `[k*T, min N (k*T + T))`. -/
def soaToAosoaColumn (src : List Nat) (N T elem : Nat) : List Nat :=
  (List.range ((N + T - 1) / T)).foldl
    (fun dst k =>
      let b := k * T
      let e := min N (b + T)
      memcpyAt dst src (b * elem) ((e - b) * elem))
    (List.replicate src.length 0)

/-- `transform_soa_to_aosoa(v, T)` (part_001): per-column tile copy, then
`layout = AoSoA`, `aosoa_tile = T`. -/
def transform_soa_to_aosoa (V : ViewRec) (T : Nat) : ViewRec :=
  { V with
    columns := V.columns.map fun pc =>
      (pc.1, { pc.2 with bytes := soaToAosoaColumn pc.2.bytes V.len T pc.2.elem_size })
    layout := LayoutKind.AoSoA
    aosoa_tile := T }

/-- Per-column body of `transform_aosoa_to_soa`: a full copy into a fresh
buffer of the same size. -/
def fullCopyColumn (src : List Nat) : List Nat :=
  memcpyAt (List.replicate src.length 0) src 0 src.length

/-- `transform_aosoa_to_soa(v)` (part_001): if the layout is not AoSoA only
the labels are reset; otherwise every column is fully copied and the labels
are reset. -/
def transform_aosoa_to_soa (V : ViewRec) : ViewRec :=
  if V.layout ≠ LayoutKind.AoSoA then
    { V with layout := LayoutKind.SoA, aosoa_tile := 0 }
  else
    { V with
      columns := V.columns.map fun pc => (pc.1, { pc.2 with bytes := fullCopyColumn pc.2.bytes })
      layout := LayoutKind.SoA
      aosoa_tile := 0 }

/-- `make_view(arch)` (part_001) over the global view table: scan `g_views`
from index 0 and return `i+1` for the first record whose archetype matches;
otherwise push an empty record (`len = 0`) and return the new size.
Returns the view id together with the updated table. -/
def make_view (views : List ViewRec) (arch : Nat) : Nat × List ViewRec :=
  match views.findIdx? (fun V => V.arch == arch) with
  | some i => (i + 1, views)
  | none => (views.length + 1, views ++ [{ arch := arch, len := 0, columns := [] }])

/-- The 4 bytes of `((float*)bytes.data())[idx]`. -/
def f32At (bytes : List Nat) (idx : Nat) : List Nat :=
  (bytes.drop (4 * idx)).take 4

/-- Inner row loop of `acquire_matrix_block` for one found column `j`:
writes `mb.data[j*B + i] = src[offset+i]` for `i = 0, 1, ...`, stopping when
`offset + i ≥ len` (the `break`; the stopping condition is monotone in `i`,
so the guarded fold below computes exactly what the breaking loop does). -/
def copyBlockColumn (d : List (List Nat)) (src : List Nat) (j B offset len : Nat) :
    List (List Nat) :=
  (List.range B).foldl
    (fun d i => if offset + i < len then d.set (j * B + i) (f32At src (offset + i)) else d) d

/-- One iteration of the column loop of `acquire_matrix_block`: look up
`comps[j]` in the view's column map; on a miss, `continue`; on a hit, copy
the row range into block column `j`. -/
def acquireStep (V : ViewRec) (comps : List String) (B offset : Nat)
    (d : List (List Nat)) (j : Nat) : List (List Nat) :=
  match V.columns.lookup (comps.getD j "") with
  | none => d
  | some col => copyBlockColumn d col.bytes j B offset V.len

/-- `acquire_matrix_block(v, comps, K, B, offset)` (part_001), returning the
block's `data` buffer: a `B × K` column-major array of floats (each float is
its 4-byte representation). `std::malloc` leaves the buffer indeterminate, so
the initial contents are the explicit `garbage` argument (length `B*K`).
Columns whose path is not found are skipped (`continue`), leaving their
cells untouched. -/
def acquire_matrix_block (V : ViewRec) (comps : List String) (B offset : Nat)
    (garbage : List (List Nat)) : List (List Nat) :=
  (List.range comps.length).foldl (acquireStep V comps B offset) garbage

/-- `Sample` from `include/dynsoa/metrics.h`, with the same default member
initializers. `time_us`, `p95_tile_us`, `p99_tile_us` are `uint32_t` and are
modelled as `Nat` (the claims only exercise small values); the `float`
metrics are modelled as `ℚ`. -/
structure Sample where
  kernel : String := ""
  view : Nat := 0
  warp_eff : ℚ := 1
  branch_div : ℚ := 0
  mem_coalesce : ℚ := 1
  l2_miss_rate : ℚ := 0
  time_us : Nat := 0
  p95_tile_us : Nat := 0
  p99_tile_us : Nat := 0
deriving DecidableEq, Repr

/-- `FrameAgg` from `include/dynsoa/types.h`, with the same default member
initializers (`warp_eff = 1`, `mem_coalesce = 1`, the rest 0). The C++
field `tail_ratio` is named `tailRat` here. -/
structure FrameAgg where
  mean_us : ℚ := 0
  p95_us : ℚ := 0
  p99_us : ℚ := 0
  warp_eff : ℚ := 1
  branch_div : ℚ := 0
  mem_coalesce : ℚ := 1
  l2_miss : ℚ := 0
  tailRat : ℚ := 0
deriving DecidableEq, Repr

/-- `metrics_note_frame_end(v, s)` (metrics.cpp): per-view EWMA update with
`a = 0.2`; `mean_us`, `warp_eff`, `p95_us`, `p99_us` seed directly from the
sample when the stored value is 0; `tail_ratio` is recomputed from the
updated `p95`/`p99`. -/
def noteFrameEnd (E : FrameAgg) (s : Sample) : FrameAgg :=
  let a : ℚ := 0.2
  let lerp : ℚ → ℚ → ℚ := fun cur obs => (1 - a) * cur + a * obs
  let mean := if E.mean_us = 0 then (s.time_us : ℚ) else lerp E.mean_us s.time_us
  let warp := if E.warp_eff = 0 then s.warp_eff else lerp E.warp_eff s.warp_eff
  let div := lerp E.branch_div s.branch_div
  let mem := lerp E.mem_coalesce s.mem_coalesce
  let l2 := lerp E.l2_miss s.l2_miss_rate
  let p95 := if E.p95_us = 0 then (s.p95_tile_us : ℚ) else lerp E.p95_us s.p95_tile_us
  let p99 := if E.p99_us = 0 then (s.p99_tile_us : ℚ) else lerp E.p99_us s.p99_tile_us
  { mean_us := mean, p95_us := p95, p99_us := p99, warp_eff := warp, branch_div := div,
    mem_coalesce := mem, l2_miss := l2, tailRat := if p95 > 0 then p99 / p95 else 0 }

/-- `aggregate(v, window_frames)` (metrics.cpp) over the view's sample
window (oldest first; the C++ deque scan walks from the newest sample
backwards for up to `window_frames` samples). Sums start from the
default-initialized `FrameAgg A{}` — so `warp_eff` and `mem_coalesce` sums
start at 1, exactly as in the source — and `p95_us`/`p99_us` are overwritten
each step, ending with the OLDEST scanned sample's values. A missing or
empty window returns the default aggregate. -/
def aggregate (window : List Sample) (frames : Nat) : FrameAgg :=
  let scanned := window.reverse.take frames
  let A := scanned.foldl
    (fun A s =>
      { A with
        mean_us := A.mean_us + s.time_us
        warp_eff := A.warp_eff + s.warp_eff
        branch_div := A.branch_div + s.branch_div
        mem_coalesce := A.mem_coalesce + s.mem_coalesce
        l2_miss := A.l2_miss + s.l2_miss_rate
        p95_us := (s.p95_tile_us : ℚ)
        p99_us := (s.p99_tile_us : ℚ) })
    ({} : FrameAgg)
  let n := scanned.length
  if 0 < n then
    { A with
      mean_us := A.mean_us / n
      warp_eff := A.warp_eff / n
      branch_div := A.branch_div / n
      mem_coalesce := A.mem_coalesce / n
      l2_miss := A.l2_miss / n
      tailRat := if A.p95_us > 0 then A.p99_us / A.p95_us else 0 }
  else A

/-- `LearnState` (scheduler.h) with its default member initializers. -/
structure LearnState where
  a_div : ℚ := 0.06
  a_mem : ℚ := 0.04
  a_tail : ℚ := 0.02
deriving DecidableEq, Repr

/-- `RetilePlan` (layout.h) with its default member initializers. The C++
field `to` is named `toL` here (`to` is reserved in Lean); `tile_or_block`
is an `int`, modelled as `Nat` (the runtime only stores nonnegative
tiles). -/
structure RetilePlan where
  toL : LayoutKind := LayoutKind.SoA
  tile_or_block : Nat := 0
  est_cost_us : ℚ := 0
  est_gain_us : ℚ := 0
deriving DecidableEq, Repr

/-- `PolicyTrigger` (scheduler.h). -/
structure PolicyTrigger where
  when : String
  action : String
  arg : Nat := 0
  priority : ℚ := 1
deriving DecidableEq, Repr

/-- `Policy` (scheduler.h) with its default member initializers. -/
structure Policy where
  triggers : List PolicyTrigger := []
  min_frames_between_retiles : Int := 5
  cooloff_frames : Int := 10
deriving DecidableEq, Repr

/-- `plan_aosoa(v, tile)` (layout.cpp). `bytes_to_move(v)` and
`aggregate(v, 3)` are passed in explicitly; `mem_bw_bytes_per_us()` is the
constant 4096. -/
def plan_aosoa (bytes : Nat) (a : FrameAgg) (L : LearnState) (tile : Nat) : RetilePlan :=
  let cost : ℚ := (bytes : ℚ) / 4096
  let div_term := max 0 (a.branch_div - 0.15)
  let mem_term := max 0 (0.75 - a.mem_coalesce)
  let tail_term := max 0 (a.tailRat - 1.10)
  let base : ℚ := if a.p95_us > 0 then a.p95_us else if a.mean_us > 0 then a.mean_us else 500
  let g := base * (L.a_div * div_term + L.a_mem * mem_term + L.a_tail * tail_term)
  { toL := LayoutKind.AoSoA, tile_or_block := tile, est_cost_us := cost,
    est_gain_us := max 30 (min g (base * 0.35)) }

/-- `plan_matrix(v, block)` (layout.cpp). -/
def plan_matrix (bytes : Nat) (a : FrameAgg) (L : LearnState) (block : Nat) : RetilePlan :=
  let cost : ℚ := 0.25 * ((bytes : ℚ) / 4096)
  let mem_term := max 0 (0.80 - a.mem_coalesce)
  let base : ℚ := if a.mean_us > 0 then a.mean_us else 400
  let g := base * ((0.8 * L.a_mem) * mem_term)
  { toL := LayoutKind.Matrix, tile_or_block := block, est_cost_us := cost,
    est_gain_us := max 15 (min g (base * 0.20)) }

/-- `field_value(name, a)` (scheduler.cpp); unknown field names evaluate
to 0. The C++ field name `"tail_ratio"` selects the model field `tailRat`. -/
def field_value (name : String) (a : FrameAgg) : ℚ :=
  if name = "mean_us" then a.mean_us
  else if name = "p95_us" then a.p95_us
  else if name = "p99_us" then a.p99_us
  else if name = "warp_eff" then a.warp_eff
  else if name = "branch_div" then a.branch_div
  else if name = "mem_coalesce" then a.mem_coalesce
  else if name = "l2_miss" then a.l2_miss
  else if name = "tail_ratio" then a.tailRat
  else 0

/-- `trim` (scheduler.cpp): strip leading and trailing spaces and tabs. -/
def trim (s : List Char) : List Char :=
  ((s.dropWhile fun c => c == ' ' || c == '\t').reverse.dropWhile
    fun c => c == ' ' || c == '\t').reverse

/-- `std::string::find(pat)`: index of the first occurrence of `pat`, if
any. -/
def findSub (hay pat : List Char) : Option Nat :=
  match hay with
  | [] => if pat = [] then some 0 else none
  | _ :: t => if pat.isPrefixOf hay then some 0 else (findSub t pat).map (· + 1)

/-- Digit-run parser used by the `stod`/`atof` models: returns the value,
the number of digits consumed, and the rest of the input. -/
def parseDigitsAux (s : List Char) (acc cnt : Nat) : Nat × Nat × List Char :=
  match s with
  | c :: t =>
      if c.isDigit then parseDigitsAux t (acc * 10 + (c.toNat - 48)) (cnt + 1)
      else (acc, cnt, c :: t)
  | [] => (acc, cnt, [])

/-- Model of `std::stod`: skip leading whitespace, optional sign, decimal
mantissa (requiring at least one digit), optional exponent; the longest
valid prefix is converted. Returns `Except.error` when no conversion can
be performed (C++ throws `std::invalid_argument` there). Hexadecimal,
`inf` and `nan` forms are not modelled (nothing the runtime evaluates uses
them). -/
def stod (s : List Char) : Except Unit ℚ :=
  let s1 := s.dropWhile fun c => c == ' ' || c == '\t' || c == '\n' || c == '\r'
  let signAndRest : Bool × List Char :=
    match s1 with
    | '-' :: t => (true, t)
    | '+' :: t => (false, t)
    | _ => (false, s1)
  let neg := signAndRest.1
  let s2 := signAndRest.2
  let ipart := parseDigitsAux s2 0 0
  let s3 := ipart.2.2
  let fpart : Nat × Nat × List Char :=
    match s3 with
    | '.' :: t => parseDigitsAux t 0 0
    | _ => (0, 0, s3)
  if ipart.2.1 + fpart.2.1 = 0 then Except.error ()
  else
    let mant : ℚ := (ipart.1 : ℚ) + (fpart.1 : ℚ) / ((10 : ℚ) ^ fpart.2.1)
    let s4 := fpart.2.2
    let valNoSign : ℚ :=
      match s4 with
      | c :: t =>
          if c == 'e' || c == 'E' then
            let esignAndRest : Bool × List Char :=
              match t with
              | '-' :: u => (true, u)
              | '+' :: u => (false, u)
              | _ => (false, t)
            let epart := parseDigitsAux esignAndRest.2 0 0
            if epart.2.1 = 0 then mant
            else if esignAndRest.1 then mant / ((10 : ℚ) ^ epart.1)
            else mant * ((10 : ℚ) ^ epart.1)
          else mant
      | [] => mant
    Except.ok (if neg then -valNoSign else valNoSign)

/-- Operator search of `eval_atom` (scheduler.cpp): try `>=`, `<=`, `==`,
`>`, `<` in that order, returning the first operator that occurs anywhere
in the expression, with its position. -/
def findOp (e : List Char) : Option (List Char × Nat) :=
  match findSub e ['>', '='] with
  | some p => some (['>', '='], p)
  | none =>
    match findSub e ['<', '='] with
    | some p => some (['<', '='], p)
    | none =>
      match findSub e ['=', '='] with
      | some p => some (['=', '='], p)
      | none =>
        match findSub e ['>'] with
        | some p => some (['>'], p)
        | none =>
          match findSub e ['<'] with
          | some p => some (['<'], p)
          | none => none

/-- `eval_atom(expr, a)` (scheduler.cpp). No operator: `false`. Otherwise
the left side resolves through `field_value` (unknown names give 0) and the
right side goes through `std::stod`, whose failure propagates as an
exception (`Except.error`). `==` compares with tolerance `1e-9`. -/
def eval_atom (expr : List Char) (a : FrameAgg) : Except Unit Bool :=
  let e := trim expr
  match findOp e with
  | none => Except.ok false
  | some (op, pos) =>
    let lhs := trim (e.take pos)
    let rhs := trim (e.drop (pos + op.length))
    let L := field_value (String.mk lhs) a
    match stod rhs with
    | Except.error u => Except.error u
    | Except.ok R =>
      Except.ok
        (if op = ['>'] then decide (L > R)
         else if op = ['<'] then decide (L < R)
         else if op = ['>', '='] then decide (L ≥ R)
         else if op = ['<', '='] then decide (L ≤ R)
         else if op = ['=', '='] then decide (|L - R| < 1 / 1000000000)
         else false)

/-- `eval_pred(when, a)` (scheduler.cpp): split once on the first `&&`,
else on the first `||`, else a single atom; `&&`/`||` short-circuit as in
C++. -/
def eval_pred (w : List Char) (a : FrameAgg) : Except Unit Bool :=
  match findSub w ['&', '&'] with
  | some p => do
      let b1 ← eval_atom (w.take p) a
      if b1 then eval_atom (w.drop (p + 2)) a else pure false
  | none =>
    match findSub w ['|', '|'] with
    | some p => do
        let b1 ← eval_atom (w.take p) a
        if b1 then pure true else eval_atom (w.drop (p + 2)) a
    | none => eval_atom w a

/-- Association-list read with default, standing for
`unordered_map::operator[]` on the read side (absent keys read as the
value-initialized default). -/
def aget {α : Type} (m : List (Nat × α)) (k : Nat) (d : α) : α :=
  (m.lookup k).getD d

/-- Association-list write, standing for `unordered_map::operator[]` on the
assignment side: overwrite the entry for the key, or append a new entry. -/
def aset {α : Type} : List (Nat × α) → Nat → α → List (Nat × α)
  | [], k, x => [(k, x)]
  | p :: t, k, x => if p.1 = k then (k, x) :: t else p :: aset t k x

/-- Association-list erase, standing for `unordered_map::erase`. -/
def aerase {α : Type} (m : List (Nat × α)) (k : Nat) : List (Nat × α) :=
  m.filter (fun p => p.1 != k)

/-- The scheduler's process-wide mutable state (scheduler.cpp):
`g_policy`, `g_frame_idx`, `g_cooldown`, `g_learn`,
`g_pre_action_baseline`, `g_action_frame`. The maps are association
lists. -/
structure SchedState where
  policy : Policy := {}
  frame_idx : Int := 0
  cooldown : List (Nat × Int) := []
  learn : LearnState := {}
  pre_baseline : List (Nat × ℚ) := []
  action_frame : List (Nat × Int) := []
deriving DecidableEq, Repr

/-- A candidate of the end-of-frame applier (`struct Cand` in
`scheduler_on_end_frame`). -/
structure Cand where
  v : Nat
  plan : RetilePlan
  score : ℚ
deriving DecidableEq, Repr

/-- Plan construction from a fired trigger in `scheduler_on_end_frame`:
`RETILE_AOSOA`/`PACK_MATRIX` call the planners, `RETILE_SOA` keeps the
default-initialized plan with `to = SoA` (cost and gain stay 0), any other
action string leaves the default plan untouched. -/
def trigger_plan (a : FrameAgg) (bytes : Nat) (L : LearnState) (t : PolicyTrigger) :
    RetilePlan :=
  if t.action = "RETILE_AOSOA" then plan_aosoa bytes a L t.arg
  else if t.action = "RETILE_SOA" then { toL := LayoutKind.SoA }
  else if t.action = "PACK_MATRIX" then plan_matrix bytes a L t.arg
  else {}

/-- The trigger loop of `scheduler_on_end_frame` for one view: for each
trigger whose predicate holds, build the plan, score it
`priority * est_gain / max(1, est_cost)`, and keep it iff the score
exceeds 0.05. A predicate evaluation that throws aborts the frame. -/
def viewCands (a : FrameAgg) (bytes : Nat) (L : LearnState) (v : Nat) :
    List PolicyTrigger → Except Unit (List Cand)
  | [] => pure []
  | t :: ts => do
      let b ← eval_pred t.when.toList a
      let rest ← viewCands a bytes L v ts
      if b then
        let p := trigger_plan a bytes L t
        let score := t.priority * (p.est_gain_us / max 1 p.est_cost_us)
        if score > 0.05 then pure ({ v := v, plan := p, score := score } :: rest)
        else pure rest
      else pure rest

/-- The view loop of `scheduler_on_end_frame`: for each view id, skip views
with a fully zero aggregate, count down cool-off (skipping the view), and
otherwise collect trigger candidates. Returns the updated cool-off map and
the candidate list in view order. -/
def collectViews (agg : Nat → FrameAgg) (bytes : Nat → Nat) (L : LearnState)
    (triggers : List PolicyTrigger) :
    List Nat → List (Nat × Int) → Except Unit (List (Nat × Int) × List Cand)
  | [], cd => pure (cd, [])
  | v :: vs, cd =>
      let a := agg v
      if a.mean_us = 0 ∧ a.p95_us = 0 then collectViews agg bytes L triggers vs cd
      else if aget cd v 0 > 0 then
        collectViews agg bytes L triggers vs (aset cd v (aget cd v 0 - 1))
      else do
        let cs ← viewCands a (bytes v) L v triggers
        let cdRest ← collectViews agg bytes L triggers vs cd
        pure (cdRest.1, cs ++ cdRest.2)

/-- The sort order of the candidate list: descending score, ties broken by
smaller view id (the comparator of the `std::sort` call). -/
def candLE (x y : Cand) : Bool :=
  decide (y.score < x.score ∨ (x.score = y.score ∧ x.v ≤ y.v))

/-- C++ `(int)` cast of a nonnegative-or-negative `double`: truncation
toward zero. -/
def cppTrunc (q : ℚ) : Int :=
  if 0 ≤ q then Int.floor q else Int.ceil q

/-- The budget admission loop of `scheduler_on_end_frame`: walk the sorted
candidates, admitting one iff `used + (int)est_cost_us ≤ 200000`, and
accumulate the truncated cost of each admitted candidate into `used`. -/
def admitFilter : List Cand → Int → List Cand
  | [], _ => []
  | c :: rest, used =>
      if used + cppTrunc c.plan.est_cost_us ≤ 200000 then
        c :: admitFilter rest (used + cppTrunc c.plan.est_cost_us)
      else admitFilter rest used

/-- The effects of applying one admitted candidate: record the pre-action
baseline when positive, set the view's cool-off to `policy.cooloff_frames`,
record the action frame. (The retile itself acts on the entity store, not
on the scheduler state.) -/
def applyCand (agg : Nat → FrameAgg) (st : SchedState) (c : Cand) : SchedState :=
  let before := agg c.v
  let baseline : ℚ :=
    if before.p95_us > 0 then before.p95_us
    else if before.mean_us > 0 then before.mean_us else 0
  { st with
    pre_baseline :=
      if baseline > 0 then aset st.pre_baseline c.v baseline else st.pre_baseline
    cooldown := aset st.cooldown c.v st.policy.cooloff_frames
    action_frame := aset st.action_frame c.v st.frame_idx }

/-- One entry of the deferred-learning loop of `scheduler_on_end_frame`:
for a view acted on at least 2 frames ago with a recorded positive
baseline, take the post-action aggregate, compute the realized gain, and
apply the clamped normalized gradient step to the three coefficients;
finally erase the baseline entry. -/
def learnStep (agg : Nat → FrameAgg) (st : SchedState) (entry : Nat × Int) : SchedState :=
  if st.frame_idx - entry.2 < 2 then st
  else
    match st.pre_baseline.lookup entry.1 with
    | none => st
    | some base =>
      let after := agg entry.1
      let obs : ℚ :=
        if after.p95_us > 0 then after.p95_us
        else if after.mean_us > 0 then after.mean_us else base
      if obs ≤ 0 ∨ base ≤ 0 then st
      else
        let realized := max 0 (base - obs)
        let div_term := max 0 (after.branch_div - 0.15)
        let mem_term := max 0 (0.75 - after.mem_coalesce)
        let tail_term := max 0 (after.tailRat - 1.10)
        let denom := 1 / 1000000 +
          (div_term * div_term + mem_term * mem_term + tail_term * tail_term)
        let pred := base * (st.learn.a_div * div_term + st.learn.a_mem * mem_term +
          st.learn.a_tail * tail_term)
        let err := realized - pred
        let lr : ℚ := 0.10
        { st with
          learn :=
            { a_div := max 0 (min 0.25 (st.learn.a_div + lr * (err / base) * (div_term / denom)))
              a_mem := max 0 (min 0.25 (st.learn.a_mem + lr * (err / base) * (mem_term / denom)))
              a_tail := max 0 (min 0.25 (st.learn.a_tail + lr * (err / base) * (tail_term / denom))) }
          pre_baseline := aerase st.pre_baseline entry.1 }

/-- `scheduler_on_end_frame()` (scheduler.cpp): collect candidates over
views 1..64, sort by descending score (view id tie-break), admit under the
hardcoded 200000 µs budget, apply effects, then run the deferred-learning
loop over all recorded actions. `aggregate(v, 3)` and `bytes_to_move(v)`
are passed in as the (frame-constant) metrics interface. Returns the new
state and the list of applied candidates, in application order. -/
def scheduler_on_end_frame (agg : Nat → FrameAgg) (bytes : Nat → Nat) (st : SchedState) :
    Except Unit (SchedState × List Cand) := do
  let cdCands ← collectViews agg bytes st.learn st.policy.triggers (List.range' 1 64)
    st.cooldown
  let sorted := cdCands.2.mergeSort candLE
  let admitted := admitFilter sorted 0
  let st1 := admitted.foldl (applyCand agg) { st with cooldown := cdCands.1 }
  let st2 := st1.action_frame.foldl (learnStep agg) st1
  pure (st2, admitted)

/-- One frame of runtime driving, as seen by the scheduler: an installed
policy (`scheduler_set_policy` may run between frames), and the per-view
aggregates and byte counts the metrics/entity store serve during that
frame's `end_frame`. -/
structure FrameEnv where
  agg : Nat → FrameAgg
  bytes : Nat → Nat
  policy : Policy

/-- Consecutive frames: each `begin_frame` increments `g_frame_idx`, then
`end_frame` runs the scheduler. Returns the final state and the per-frame
applied-candidate lists. -/
def runFrames : List FrameEnv → SchedState → Except Unit (SchedState × List (List Cand))
  | [], st => pure (st, [])
  | e :: es, st => do
      let r1 ← scheduler_on_end_frame e.agg e.bytes
        { st with policy := e.policy, frame_idx := st.frame_idx + 1 }
      let r2 ← runFrames es r1.1
      pure (r2.1, r1.2 :: r2.2)

/-- `std::string::find(c, start)`: first occurrence of character `c` at or
after index `start`. -/
def findCharFrom (s : List Char) (c : Char) (start : Nat) : Option Nat :=
  ((s.drop start).findIdx? (· == c)).map (· + start)

/-- `std::string::find_first_of(",}", start)`. -/
def findFirstOfFrom (s : List Char) (cs : List Char) (start : Nat) : Option Nat :=
  ((s.drop start).findIdx? (fun c => cs.contains c)).map (· + start)

/-- Model of `std::atof`: like `stod` but returning 0.0 when no conversion
can be performed. -/
def atof (s : List Char) : ℚ :=
  match stod s with
  | Except.ok q => q
  | Except.error _ => 0

/-- `findNum(key)` inside `scheduler_load_state` (scheduler.cpp): locate the
key by substring scan, then the following `:`, then cut at the next `,` or
`}` (or the end of the file) and run `atof` on the slice. `none` stands for
the C++ NAN result (key or colon not found). -/
def findNum (s : List Char) (key : List Char) : Option ℚ :=
  match findSub s key with
  | none => none
  | some pos =>
    match findCharFrom s ':' pos with
    | none => none
    | some cpos =>
      let endPos :=
        match findFirstOfFrom s [',', '\x7d'] (cpos + 1) with
        | some e => e
        | none => s.length
      some (atof ((s.drop (cpos + 1)).take (endPos - (cpos + 1))))

/-- `scheduler_load_state()` (scheduler.cpp), applied to the persisted file
contents: each of the three keys found in the file is assigned to the
corresponding coefficient — with NO clamping; missing keys keep the current
value. -/
def scheduler_load_state (content : List Char) (L : LearnState) : LearnState :=
  { a_div := (findNum content ('"' :: ("a_div".toList ++ ['"']))).getD L.a_div
    a_mem := (findNum content ('"' :: ("a_mem".toList ++ ['"']))).getD L.a_mem
    a_tail := (findNum content ('"' :: ("a_tail".toList ++ ['"']))).getD L.a_tail }

/-- The init/shutdown lifecycle state of dynsoa.cpp: the `std::once_flag`
`g_once`, the `g_inited` flag, the in-memory `LearnState` and the persisted
one (the `dynsoa_learn.json` file, abstracted to the values
`scheduler_save_state` writes and `scheduler_load_state` reads back). -/
structure Lifecycle where
  once_used : Bool := false
  inited : Bool := false
  learn : LearnState := {}
  persisted : LearnState := {}
deriving DecidableEq, Repr

/-- `dynsoa_init` (dynsoa.cpp): `std::call_once` runs the body — load the
persisted `LearnState`, set `g_inited` — only the first time in the process;
any later call does nothing, whatever `g_inited` is. -/
def dynsoa_init (s : Lifecycle) : Lifecycle :=
  if s.once_used then s
  else { s with once_used := true, inited := true, learn := s.persisted }

/-- `dynsoa_shutdown` (dynsoa.cpp): when initialized, persist the
`LearnState` and clear `g_inited`; otherwise a no-op. -/
def dynsoa_shutdown (s : Lifecycle) : Lifecycle :=
  if s.inited then { s with persisted := s.learn, inited := false } else s

/-- The always-true demo trigger
`{"mean_us >= 0", "RETILE_AOSOA", 128, 1.0}` installed by
`dynsoa_set_policy`. -/
def trigAlways : PolicyTrigger :=
  { when := "mean_us >= 0", action := "RETILE_AOSOA", arg := 128, priority := 1 }

/-- The always-true demo policy shape (one `RETILE_AOSOA` tile-128 trigger,
as installed by `dynsoa_set_policy`), here with `cooloff_frames = 2`. -/
def polAlways : Policy :=
  { triggers := [trigAlways], cooloff_frames := 2 }

/-- A busy sample: 1 second of kernel time with high branch divergence. -/
def sHi : Sample := { time_us := 1000000, branch_div := 0.9 }

/-- A busy sample with moderate branch divergence. -/
def sLo : Sample := { time_us := 1000000, branch_div := 0.4 }

/-- Metrics interface of the budget-overshoot scenario: only view 1 is
active, aggregating the window `[sHi]`. -/
def aggOne (v : Nat) : FrameAgg :=
  if v = 1 then aggregate [sHi] 3 else aggregate [] 3

/-- Entity-store interface of the budget-overshoot scenario: view 1 moves
819202048 bytes, so `plan_aosoa` estimates a cost of exactly
`819202048 / 4096 = 200000.5` µs. -/
def bytesBig (v : Nat) : Nat := if v = 1 then 819202048 else 0

/-- Metrics interface of the two-candidate budget-gating scenario: views 1
and 2 are active with windows `[sHi]` and `[sLo]`. -/
def aggTwo (v : Nat) : FrameAgg :=
  if v = 1 then aggregate [sHi] 3 else if v = 2 then aggregate [sLo] 3 else aggregate [] 3

/-- Entity-store interface of the budget-gating scenario: both views move
614400000 bytes, so both plans cost exactly `614400000 / 4096 = 150000` µs. -/
def bytesTwo (v : Nat) : Nat := if v = 1 ∨ v = 2 then 614400000 else 0

/-- The sample the cool-off scenario emits every frame. -/
def sample1000 : Sample := { time_us := 1000 }

/-- The cool-off scenario's policy: one always-true trigger with
`cooloff_frames = 3`. -/
def scenarioPolicy : Policy :=
  { triggers := [trigAlways], cooloff_frames := 3 }

/-- One frame of the cool-off scenario: view 1 has emitted `n` samples of
`time_us = 1000`; every other view is idle. -/
def scenarioEnv (n : Nat) : FrameEnv :=
  { agg := fun v => if v = 1 then aggregate (List.replicate n sample1000) 3 else aggregate [] 3
    bytes := fun _ => 0
    policy := scenarioPolicy }

/-- The ten frames of the cool-off scenario. -/
def scenarioEnvs : List FrameEnv :=
  (List.range 10).map fun f => scenarioEnv (f + 1)

/-- The candidate the cool-off scenario produces on its applying frames:
`bytes = 0` gives cost 0, the all-zero terms give the floor gain 30, and
the score is `1 * (30 / max(1, 0)) = 30`. -/
def cand30 : Cand :=
  Cand.mk 1 (RetilePlan.mk LayoutKind.AoSoA 128 0 30) 30

/-- The documented range of the learning coefficients: all three in
`[0, 0.25]`. -/
def inRange (L : LearnState) : Prop :=
  0 ≤ L.a_div ∧ L.a_div ≤ 1 / 4 ∧ 0 ≤ L.a_mem ∧ L.a_mem ≤ 1 / 4 ∧
    0 ≤ L.a_tail ∧ L.a_tail ≤ 1 / 4

/-! ### Theorems -/

/-- `memcpyAt` preserves the buffer length. -/
theorem memcpyAt_length (dst src : List Nat) (s l : Nat) :
    (memcpyAt dst src s l).length = dst.length := by
  simp [memcpyAt]

/-- Pointwise description of `memcpyAt`: inside `[s, s+l)` the byte comes from
`src`, elsewhere it is unchanged. -/
theorem memcpyAt_getD (dst src : List Nat) (s l i : Nat) (h : i < dst.length) :
    (memcpyAt dst src s l).getD i 0 =
      if s ≤ i ∧ i < s + l then src.getD i 0 else dst.getD i 0 := by
  have h' : i < (memcpyAt dst src s l).length := by
    rw [memcpyAt_length]; exact h
  rw [List.getD_eq_getElem?_getD, List.getElem?_eq_getElem h', Option.getD_some]
  simp only [memcpyAt, List.getElem_mapIdx]
  by_cases hc : s ≤ i ∧ i < s + l
  · simp [hc]
  · simp only [hc, if_false]
    rw [List.getD_eq_getElem?_getD, List.getElem?_eq_getElem h, Option.getD_some]

/-- A fold of `memcpyAt` steps preserves the buffer length. -/
theorem foldl_memcpyAt_length (src : List Nat) (start len : Nat → Nat)
    (ks : List Nat) (dst : List Nat) :
    (ks.foldl (fun d k => memcpyAt d src (start k) (len k)) dst).length = dst.length := by
  induction ks generalizing dst with
  | nil => rfl
  | cons k ks ih => rw [List.foldl_cons, ih, memcpyAt_length]

/-- Pointwise description of a fold of `memcpyAt` steps: a position covered by
some step holds the `src` byte, any other position is unchanged. -/
theorem foldl_memcpyAt_getD (src : List Nat) (start len : Nat → Nat)
    (ks : List Nat) (dst : List Nat) (hlen : dst.length = src.length)
    (i : Nat) (hi : i < src.length) :
    (ks.foldl (fun d k => memcpyAt d src (start k) (len k)) dst).getD i 0 =
      if ∃ k ∈ ks, start k ≤ i ∧ i < start k + len k then src.getD i 0
      else dst.getD i 0 := by
  induction ks generalizing dst with
  | nil => simp
  | cons k ks ih =>
    rw [List.foldl_cons, ih (memcpyAt dst src (start k) (len k))
      (by rw [memcpyAt_length]; exact hlen)]
    rw [memcpyAt_getD dst src (start k) (len k) i (by rw [hlen]; exact hi)]
    by_cases h1 : ∃ k' ∈ ks, start k' ≤ i ∧ i < start k' + len k'
    · have hx : ∃ k' ∈ k :: ks, start k' ≤ i ∧ i < start k' + len k' := by
        obtain ⟨k', hk', hr⟩ := h1
        exact ⟨k', List.mem_cons_of_mem _ hk', hr⟩
      rw [if_pos h1, if_pos hx]
    · by_cases h2 : start k ≤ i ∧ i < start k + len k
      · have hx : ∃ k' ∈ k :: ks, start k' ≤ i ∧ i < start k' + len k' :=
          ⟨k, List.mem_cons_self _ _, h2⟩
        rw [if_neg h1, if_pos h2, if_pos hx]
      · have hx : ¬ ∃ k' ∈ k :: ks, start k' ≤ i ∧ i < start k' + len k' := by
          rintro ⟨k', hk', hr⟩
          rcases List.mem_cons.mp hk' with rfl | hmem
          · exact h2 hr
          · exact h1 ⟨k', hmem, hr⟩
        rw [if_neg h1, if_neg h2, if_neg hx]

/-- The per-column tile copy of `transform_soa_to_aosoa` is the identity on a
column of exactly `N * elem` bytes when the tile is at least 1: consecutive
tiles of up to `T` elements cover the whole buffer, and each tile is copied
byte-for-byte at the same offsets. -/
theorem soaToAosoaColumn_eq_self (src : List Nat) (N T elem : Nat) (hT : 1 ≤ T)
    (h : src.length = N * elem) : soaToAosoaColumn src N T elem = src := by
  have hlenfold : (soaToAosoaColumn src N T elem).length = src.length := by
    unfold soaToAosoaColumn
    rw [foldl_memcpyAt_length src (fun k => k * T * elem)
      (fun k => (min N (k * T + T) - k * T) * elem), List.length_replicate]
  apply List.ext_getElem hlenfold
  intro n h1 h2
  have hn : n < src.length := h2
  have helem : 0 < elem := by
    rcases Nat.eq_zero_or_pos elem with h0 | h0
    · rw [h0, Nat.mul_zero] at h; omega
    · exact h0
  have hT0 : 0 < T := hT
  have f1 : n / elem * elem ≤ n := Nat.div_mul_le_self n elem
  have f2 : n < (n / elem + 1) * elem := by
    have hm := Nat.div_add_mod n elem
    have hr := Nat.mod_lt n helem
    calc n = elem * (n / elem) + n % elem := hm.symm
      _ < elem * (n / elem) + elem := by omega
      _ = (n / elem + 1) * elem := by ring
  have f3 : n / elem < N := by
    by_contra hc
    push_neg at hc
    have hx : N * elem ≤ n / elem * elem := Nat.mul_le_mul_right elem hc
    have hy : N * elem ≤ n := le_trans hx f1
    omega
  have f4 : n / elem / T * T ≤ n / elem := Nat.div_mul_le_self _ T
  have f5 : n / elem < n / elem / T * T + T := by
    have hm := Nat.div_add_mod (n / elem) T
    rw [Nat.mul_comm] at hm
    have hr := Nat.mod_lt (n / elem) hT0
    omega
  have hmem : n / elem / T < (N + T - 1) / T := by
    have hN1 : 1 ≤ N := by omega
    have hsplit : N + T - 1 = (N - 1) + T := by omega
    rw [hsplit, Nat.add_div_right _ hT0]
    exact Nat.lt_succ_of_le (Nat.div_le_div_right (by omega))
  have hlow : n / elem / T * T * elem ≤ n :=
    calc n / elem / T * T * elem ≤ n / elem * elem := Nat.mul_le_mul_right elem f4
      _ ≤ n := f1
  have hkTN : n / elem / T * T ≤ N := le_trans f4 (le_of_lt f3)
  have hsum : n / elem / T * T * elem
        + (min N (n / elem / T * T + T) - n / elem / T * T) * elem
      = min N (n / elem / T * T + T) * elem := by
    rw [← Nat.add_mul]
    congr 1
    omega
  have hup : n < min N (n / elem / T * T + T) * elem := by
    have hj1 : n / elem + 1 ≤ min N (n / elem / T * T + T) := by omega
    calc n < (n / elem + 1) * elem := f2
      _ ≤ min N (n / elem / T * T + T) * elem := Nat.mul_le_mul_right elem hj1
  have hcov : ∃ k ∈ List.range ((N + T - 1) / T),
      k * T * elem ≤ n ∧ n < k * T * elem + (min N (k * T + T) - k * T) * elem :=
    ⟨n / elem / T, List.mem_range.mpr hmem, hlow, by rw [hsum]; exact hup⟩
  have hgd : (soaToAosoaColumn src N T elem).getD n 0 = src.getD n 0 := by
    unfold soaToAosoaColumn
    rw [foldl_memcpyAt_getD src (fun k => k * T * elem)
      (fun k => (min N (k * T + T) - k * T) * elem) _ _ (List.length_replicate _ _) n hn]
    simp only [hcov, if_true]
  have hga : (soaToAosoaColumn src N T elem).getD n 0 = (soaToAosoaColumn src N T elem)[n] := by
    rw [List.getD_eq_getElem?_getD, List.getElem?_eq_getElem h1, Option.getD_some]
  have hgb : src.getD n 0 = src[n] := by
    rw [List.getD_eq_getElem?_getD, List.getElem?_eq_getElem h2, Option.getD_some]
  rw [← hga, hgd, hgb]

/-- The full-copy column body of `transform_aosoa_to_soa` is the identity. -/
theorem fullCopyColumn_eq_self (src : List Nat) : fullCopyColumn src = src := by
  have hlen : (fullCopyColumn src).length = src.length := by
    unfold fullCopyColumn
    rw [memcpyAt_length, List.length_replicate]
  apply List.ext_getElem hlen
  intro n h1 h2
  have hgd : (fullCopyColumn src).getD n 0 = src.getD n 0 := by
    unfold fullCopyColumn
    rw [memcpyAt_getD _ _ _ _ _ (by rw [List.length_replicate]; exact h2)]
    simp only [Nat.zero_le, true_and, Nat.zero_add, h2, if_true]
  have hga : (fullCopyColumn src).getD n 0 = (fullCopyColumn src)[n] := by
    rw [List.getD_eq_getElem?_getD, List.getElem?_eq_getElem h1, Option.getD_some]
  have hgb : src.getD n 0 = src[n] := by
    rw [List.getD_eq_getElem?_getD, List.getElem?_eq_getElem h2, Option.getD_some]
  rw [← hga, hgd, hgb]

/-- C1 (confirmed). For every view `v` whose columns satisfy the Column size
invariant (`bytes.length = len * elem_size`) and every tile `T ≥ 1`,
`transform_soa_to_aosoa(v, T)` followed by `transform_aosoa_to_soa(v)` leaves
every column's byte contents bitwise identical to before the pair of calls,
and restores `layout = SoA` and `aosoa_tile = 0`. -/
theorem soa_aosoa_roundtrip (V : ViewRec) (T : Nat) (hT : 1 ≤ T)
    (hcols : ∀ pc ∈ V.columns, pc.2.bytes.length = V.len * pc.2.elem_size) :
    transform_aosoa_to_soa (transform_soa_to_aosoa V T) =
      { V with layout := LayoutKind.SoA, aosoa_tile := 0 } := by
  unfold transform_soa_to_aosoa transform_aosoa_to_soa
  simp only [ne_eq, not_true_eq_false, if_false, reduceCtorEq, if_neg, not_false_eq_true,
    List.map_map]
  have hmap : V.columns.map
      ((fun pc => (pc.1, { pc.2 with bytes := fullCopyColumn pc.2.bytes })) ∘
        (fun pc => (pc.1, { pc.2 with
          bytes := soaToAosoaColumn pc.2.bytes V.len T pc.2.elem_size }))) = V.columns := by
    have : ∀ pc ∈ V.columns,
        ((fun pc => (pc.1, { pc.2 with bytes := fullCopyColumn pc.2.bytes })) ∘
          (fun pc => (pc.1, { pc.2 with
            bytes := soaToAosoaColumn pc.2.bytes V.len T pc.2.elem_size }))) pc = id pc := by
      intro pc hpc
      simp only [Function.comp_apply, id_eq]
      rw [fullCopyColumn_eq_self, soaToAosoaColumn_eq_self pc.2.bytes V.len T pc.2.elem_size hT
        (hcols pc hpc)]
    rw [List.map_congr_left this, List.map_id]
  rw [hmap]

/-- Witness for C1 at a concrete view: one column of 8 bytes, two elements of
4 bytes, tile 3. -/
theorem soa_aosoa_roundtrip_witness :
    transform_aosoa_to_soa (transform_soa_to_aosoa
        { arch := 7, len := 2,
          columns := [("Position.x", { bytes := [1, 2, 3, 4, 5, 6, 7, 8], elem_size := 4 })] } 3) =
      { arch := 7, len := 2,
        columns := [("Position.x", { bytes := [1, 2, 3, 4, 5, 6, 7, 8], elem_size := 4 })],
        layout := LayoutKind.SoA, aosoa_tile := 0 } :=
  soa_aosoa_roundtrip
    { arch := 7, len := 2,
      columns := [("Position.x", { bytes := [1, 2, 3, 4, 5, 6, 7, 8], elem_size := 4 })] }
    3 (by decide) (by decide)

/-- C2 counterexample. With two existing views of the same archetype, the
most recently created matching view has id 2, but `make_view` scans from
index 0 and returns the id of the FIRST matching view, 1. -/
theorem make_view_counterexample :
    (make_view [{ arch := 7, len := 1, columns := [] },
                { arch := 7, len := 2, columns := [] }] 7).1 = 1 ∧ (1 : Nat) ≠ 2 :=
  ⟨rfl, by decide⟩

/-- C2 (amended). `make_view(a)` returns the view id of the EARLIEST created
(lowest-id) view with matching archetype and leaves the table unchanged; if
no view matches it appends a new empty view (`len = 0`) and returns its id. -/
theorem make_view_spec (views : List ViewRec) (arch : Nat) :
    ((∀ V ∈ views, V.arch ≠ arch) →
      make_view views arch =
        (views.length + 1, views ++ [{ arch := arch, len := 0, columns := [] }])) ∧
    (∀ i (hi : i < views.length), (views.get ⟨i, hi⟩).arch = arch →
      (∀ j (hj : j < i), (views.get ⟨j, Nat.lt_trans hj hi⟩).arch ≠ arch) →
      make_view views arch = (i + 1, views)) := by
  constructor
  · intro hall
    unfold make_view
    have hnone : views.findIdx? (fun V => V.arch == arch) = none := by
      rw [List.findIdx?_eq_none_iff]
      intro V hV
      simpa using hall V hV
    rw [hnone]
  · intro i hi hmatch hbefore
    unfold make_view
    have hsome : views.findIdx? (fun V => V.arch == arch) = some i := by
      rw [List.findIdx?_eq_some_iff_getElem]
      refine ⟨hi, by simpa using hmatch, ?_⟩
      intro j hj
      simpa using hbefore j hj
    rw [hsome]

/-- Witness for C2 at concrete inputs: a fresh table allocates view 1 with
`len = 0`; a one-entry matching table returns id 1 unchanged. -/
theorem make_view_spec_witness :
    make_view ([] : List ViewRec) 5 = (1, [{ arch := 5, len := 0, columns := [] }]) ∧
    make_view [{ arch := 7, len := 3, columns := [] }] 7 =
      (1, [{ arch := 7, len := 3, columns := [] }]) :=
  ⟨(make_view_spec [] 5).1 (by intro V hV; cases hV),
   (make_view_spec [{ arch := 7, len := 3, columns := [] }] 7).2 0 (by decide) (by decide)
     (fun j hj => absurd hj (Nat.not_lt_zero j))⟩

/-- `copyBlockColumn` preserves the block buffer's length. -/
theorem copyBlockColumn_length (d : List (List Nat)) (src : List Nat)
    (j B offset len : Nat) :
    (copyBlockColumn d src j B offset len).length = d.length := by
  unfold copyBlockColumn
  generalize List.range B = is
  induction is generalizing d with
  | nil => rfl
  | cons i is ih =>
    rw [List.foldl_cons]
    by_cases hc : offset + i < len
    · simp only [if_pos hc]
      rw [ih, List.length_set]
    · simp only [if_neg hc]
      rw [ih]

/-- `List.set` at a different index leaves `getD` unchanged. -/
theorem getD_set_ne {α : Type} (d : List α) (k i : Nat) (x dflt : α) (h : k ≠ i) :
    (d.set k x).getD i dflt = d.getD i dflt := by
  rw [List.getD_eq_getElem?_getD, List.getElem?_set_ne h, ← List.getD_eq_getElem?_getD]

/-- `List.set` at an in-bounds index makes `getD` return the new value. -/
theorem getD_set_self {α : Type} (d : List α) (k : Nat) (x dflt : α) (h : k < d.length) :
    (d.set k x).getD k dflt = x := by
  rw [List.getD_eq_getElem?_getD, List.getElem?_set_self h, Option.getD_some]

/-- The row-copy fold writes only inside the stripe `[j*B, j*B + B)`. -/
theorem copyFold_outside (src : List Nat) (j B offset len idx : Nat)
    (is : List Nat) (his : ∀ i ∈ is, i < B) (d : List (List Nat))
    (hidx : idx < j * B ∨ j * B + B ≤ idx) :
    (is.foldl (fun d i =>
        if offset + i < len then d.set (j * B + i) (f32At src (offset + i)) else d) d).getD
      idx [] = d.getD idx [] := by
  induction is generalizing d with
  | nil => rfl
  | cons i is ih =>
    rw [List.foldl_cons]
    have hiB : i < B := his i (List.mem_cons_self _ _)
    have hne : j * B + i ≠ idx := by omega
    by_cases hc : offset + i < len
    · simp only [if_pos hc]
      rw [ih (fun i hmem => his i (List.mem_cons_of_mem _ hmem)) _, getD_set_ne _ _ _ _ _ hne]
    · simp only [if_neg hc]
      exact ih (fun i hmem => his i (List.mem_cons_of_mem _ hmem)) d

/-- Value of the row-copy fold at stripe position `j*B + r`: the source float
if row `r` was processed and lies inside the view, otherwise unchanged. -/
theorem copyFold_at (src : List Nat) (j B offset len r : Nat) (hr : r < B)
    (is : List Nat) (d : List (List Nat)) (hlen : j * B + r < d.length) :
    (is.foldl (fun d i =>
        if offset + i < len then d.set (j * B + i) (f32At src (offset + i)) else d) d).getD
      (j * B + r) [] =
      if r ∈ is ∧ offset + r < len then f32At src (offset + r) else d.getD (j * B + r) [] := by
  induction is generalizing d with
  | nil => simp
  | cons i is ih =>
    rw [List.foldl_cons]
    by_cases hir : i = r
    · subst hir
      by_cases hc : offset + i < len
      · simp only [if_pos hc]
        rw [ih _ (by rw [List.length_set]; exact hlen)]
        have hin : i ∈ i :: is ∧ offset + i < len := ⟨List.mem_cons_self _ _, hc⟩
        rw [if_pos hin]
        by_cases hmem : i ∈ is ∧ offset + i < len
        · rw [if_pos hmem]
        · rw [if_neg hmem, getD_set_self _ _ _ _ hlen]
      · simp only [if_neg hc]
        rw [ih d hlen]
        have hno1 : ¬(i ∈ is ∧ offset + i < len) := fun hx => hc hx.2
        have hno2 : ¬(i ∈ i :: is ∧ offset + i < len) := fun hx => hc hx.2
        rw [if_neg hno1, if_neg hno2]
    · have hne : j * B + i ≠ j * B + r := by omega
      have hmemiff : (r ∈ i :: is ∧ offset + r < len) ↔ (r ∈ is ∧ offset + r < len) := by
        constructor
        · rintro ⟨hm, hc⟩
          rcases List.mem_cons.mp hm with rfl | hm'
          · exact absurd rfl hir
          · exact ⟨hm', hc⟩
        · rintro ⟨hm, hc⟩
          exact ⟨List.mem_cons_of_mem _ hm, hc⟩
      by_cases hc : offset + i < len
      · simp only [if_pos hc]
        rw [ih _ (by rw [List.length_set]; exact hlen), getD_set_ne _ _ _ _ _ hne]
        by_cases hmem : r ∈ is ∧ offset + r < len
        · rw [if_pos hmem, if_pos (hmemiff.mpr hmem)]
        · rw [if_neg hmem, if_neg (fun hx => hmem (hmemiff.mp hx))]
      · simp only [if_neg hc]
        rw [ih d hlen]
        by_cases hmem : r ∈ is ∧ offset + r < len
        · rw [if_pos hmem, if_pos (hmemiff.mpr hmem)]
        · rw [if_neg hmem, if_neg (fun hx => hmem (hmemiff.mp hx))]

/-- Stripes of distinct block columns are disjoint. -/
theorem stripe_disjoint (j j0 r B : Nat) (hne : j ≠ j0) (hr : r < B) :
    j0 * B + r < j * B ∨ j * B + B ≤ j0 * B + r := by
  rcases Nat.lt_or_ge j j0 with hlt | hge
  · right
    have h1 : (j + 1) * B ≤ j0 * B := Nat.mul_le_mul_right B hlt
    rw [Nat.add_mul, Nat.one_mul] at h1
    omega
  · left
    have hlt : j0 < j := Nat.lt_of_le_of_ne hge (Ne.symm hne)
    have h1 : (j0 + 1) * B ≤ j * B := Nat.mul_le_mul_right B hlt
    rw [Nat.add_mul, Nat.one_mul] at h1
    omega

/-- `acquireStep` preserves the block buffer's length. -/
theorem acquireStep_length (V : ViewRec) (comps : List String) (B offset : Nat)
    (d : List (List Nat)) (j : Nat) :
    (acquireStep V comps B offset d j).length = d.length := by
  unfold acquireStep
  cases V.columns.lookup (comps.getD j "") with
  | none => rfl
  | some col => exact copyBlockColumn_length d col.bytes j B offset V.len

/-- `acquireStep` for column `j` does not change any other column's stripe. -/
theorem acquireStep_getD_other (V : ViewRec) (comps : List String) (B offset : Nat)
    (d : List (List Nat)) (j j0 r : Nat) (hne : j ≠ j0) (hr : r < B) :
    (acquireStep V comps B offset d j).getD (j0 * B + r) [] = d.getD (j0 * B + r) [] := by
  unfold acquireStep
  cases V.columns.lookup (comps.getD j "") with
  | none => rfl
  | some col =>
    exact copyFold_outside col.bytes j B offset V.len (j0 * B + r) (List.range B)
      (fun i hmem => List.mem_range.mp hmem) d (stripe_disjoint j j0 r B hne hr)

/-- `acquireStep` for a missing column is a no-op. -/
theorem acquireStep_getD_self_none (V : ViewRec) (comps : List String) (B offset : Nat)
    (d : List (List Nat)) (j0 : Nat)
    (hl : V.columns.lookup (comps.getD j0 "") = none) :
    acquireStep V comps B offset d j0 = d := by
  unfold acquireStep
  rw [hl]

/-- `acquireStep` for a found column, on its own stripe: in-range rows get
the source float, out-of-range rows keep the old cell. -/
theorem acquireStep_getD_self_some (V : ViewRec) (comps : List String) (B offset : Nat)
    (d : List (List Nat)) (j0 r : Nat) (col : ColumnData)
    (hl : V.columns.lookup (comps.getD j0 "") = some col)
    (hr : r < B) (hlen : j0 * B + r < d.length) :
    (acquireStep V comps B offset d j0).getD (j0 * B + r) [] =
      if offset + r < V.len then f32At col.bytes (offset + r)
      else d.getD (j0 * B + r) [] := by
  unfold acquireStep
  rw [hl]
  show (copyBlockColumn d col.bytes j0 B offset V.len).getD (j0 * B + r) [] = _
  unfold copyBlockColumn
  rw [copyFold_at col.bytes j0 B offset V.len r hr (List.range B) d hlen]
  by_cases hc : offset + r < V.len
  · rw [if_pos ⟨List.mem_range.mpr hr, hc⟩, if_pos hc]
  · rw [if_neg (fun hx => hc hx.2), if_neg hc]

/-- The `acquire_matrix_block` fold never touches the stripe of a column
whose path is missing from the view. -/
theorem acquireFold_getD_none (V : ViewRec) (comps : List String) (B offset : Nat)
    (js : List Nat) (d : List (List Nat)) (j0 r : Nat) (hr : r < B)
    (hl : V.columns.lookup (comps.getD j0 "") = none) :
    (js.foldl (acquireStep V comps B offset) d).getD (j0 * B + r) [] =
      d.getD (j0 * B + r) [] := by
  induction js generalizing d with
  | nil => rfl
  | cons j js ih =>
    rw [List.foldl_cons]
    by_cases hjj : j = j0
    · subst hjj
      rw [acquireStep_getD_self_none V comps B offset d j hl, ih d]
    · rw [ih (acquireStep V comps B offset d j),
        acquireStep_getD_other V comps B offset d j j0 r hjj hr]

/-- The `acquire_matrix_block` fold leaves stripes of columns not in the
processed index list untouched. -/
theorem acquireFold_getD_absent (V : ViewRec) (comps : List String) (B offset : Nat)
    (js : List Nat) (d : List (List Nat)) (j0 r : Nat) (hr : r < B)
    (hnotmem : j0 ∉ js) :
    (js.foldl (acquireStep V comps B offset) d).getD (j0 * B + r) [] =
      d.getD (j0 * B + r) [] := by
  induction js generalizing d with
  | nil => rfl
  | cons j js ih =>
    rw [List.foldl_cons]
    have hjj : j ≠ j0 := fun hx => hnotmem (hx ▸ List.mem_cons_self _ _)
    rw [ih (acquireStep V comps B offset d j) (fun hx => hnotmem (List.mem_cons_of_mem _ hx)),
      acquireStep_getD_other V comps B offset d j j0 r hjj hr]

/-- The `acquire_matrix_block` fold copies in-range rows of a found column
whose index is processed. -/
theorem acquireFold_getD_some (V : ViewRec) (comps : List String) (B offset : Nat)
    (js : List Nat) (d : List (List Nat)) (j0 r : Nat) (col : ColumnData)
    (hl : V.columns.lookup (comps.getD j0 "") = some col)
    (hr : r < B) (hlen : j0 * B + r < d.length) (hc : offset + r < V.len)
    (hmem : j0 ∈ js) :
    (js.foldl (acquireStep V comps B offset) d).getD (j0 * B + r) [] =
      f32At col.bytes (offset + r) := by
  induction js generalizing d with
  | nil => cases hmem
  | cons j js ih =>
    rw [List.foldl_cons]
    have hstep_len : j0 * B + r < (acquireStep V comps B offset d j).length := by
      rw [acquireStep_length]; exact hlen
    by_cases hjj : j = j0
    · subst hjj
      by_cases hmem2 : j ∈ js
      · exact ih (acquireStep V comps B offset d j) hstep_len hmem2
      · rw [acquireFold_getD_absent V comps B offset js _ j r hr hmem2,
          acquireStep_getD_self_some V comps B offset d j r col hl hr hlen, if_pos hc]
    · have hmem2 : j0 ∈ js := by
        rcases List.mem_cons.mp hmem with rfl | hx
        · exact absurd rfl hjj
        · exact hx
      exact ih (acquireStep V comps B offset d j) hstep_len hmem2

/-- C3 counterexample. The block buffer comes from `std::malloc`, which does
not zero memory: acquiring with a single unknown component name over a
buffer whose indeterminate initial contents are the bytes `7,7,7,7` leaves
the skipped block column holding those bytes, not zeros. -/
theorem acquire_skipped_column_not_zeroed :
    acquire_matrix_block
        { arch := 1, len := 1,
          columns := [("Position.x", { bytes := [0, 0, 0, 0], elem_size := 4 })] }
        ["Missing.col"] 1 0 [[7, 7, 7, 7]] = [[7, 7, 7, 7]] ∧
      [[7, 7, 7, 7]] ≠ [([0, 0, 0, 0] : List Nat)] :=
  ⟨rfl, by decide⟩

/-- C3 (amended). For a block of `rows = B` rows over component list `comps`
with a buffer of `B * K` cells: every component that names an existing
column has `block.data[j*B + r] = source_column[comps[j]][offset + r]` for
all `r < min(rows, len - offset)`; every component that names no column is
skipped, its block column retaining the indeterminate `malloc` contents
(NOT necessarily zero). -/
theorem acquire_matrix_block_spec (V : ViewRec) (comps : List String) (B offset : Nat)
    (garbage : List (List Nat)) (hg : garbage.length = B * comps.length) :
    (∀ j (hj : j < comps.length) col,
      V.columns.lookup (comps.get ⟨j, hj⟩) = some col →
      ∀ r, r < B → offset + r < V.len →
        (acquire_matrix_block V comps B offset garbage).getD (j * B + r) [] =
          f32At col.bytes (offset + r)) ∧
    (∀ j (hj : j < comps.length),
      V.columns.lookup (comps.get ⟨j, hj⟩) = none →
      ∀ r, r < B →
        (acquire_matrix_block V comps B offset garbage).getD (j * B + r) [] =
          garbage.getD (j * B + r) []) := by
  have hkey : ∀ (j : Nat) (hj : j < comps.length), comps.getD j "" = comps.get ⟨j, hj⟩ := by
    intro j hj
    rw [List.getD_eq_getElem?_getD, List.getElem?_eq_getElem hj, Option.getD_some]
    rfl
  have hbound : ∀ (j r : Nat), j < comps.length → r < B → j * B + r < garbage.length := by
    intro j r hj hr
    have h1 : (j + 1) * B ≤ comps.length * B := Nat.mul_le_mul_right B hj
    rw [Nat.add_mul, Nat.one_mul] at h1
    rw [hg, Nat.mul_comm B comps.length]
    omega
  constructor
  · intro j hj col hcol r hr hin
    unfold acquire_matrix_block
    exact acquireFold_getD_some V comps B offset (List.range comps.length) garbage j r col
      (by rw [hkey j hj]; exact hcol) hr (hbound j r hj hr) hin (List.mem_range.mpr hj)
  · intro j hj hcol r hr
    unfold acquire_matrix_block
    exact acquireFold_getD_none V comps B offset (List.range comps.length) garbage j r hr
      (by rw [hkey j hj]; exact hcol)

/-- Witness for C3 at a concrete block: one found column (4 rows, 2 copied)
and one missing column over a 2-row block. -/
theorem acquire_matrix_block_spec_witness :
    (acquire_matrix_block
        { arch := 1, len := 3,
          columns := [("Position.x",
            { bytes := [10, 11, 12, 13, 20, 21, 22, 23, 30, 31, 32, 33], elem_size := 4 })] }
        ["Position.x", "Missing.col"] 2 1 [[9, 9, 9, 9], [8, 8, 8, 8], [7, 7, 7, 7], [6, 6, 6, 6]]).getD
      0 [] = [20, 21, 22, 23] ∧
    (acquire_matrix_block
        { arch := 1, len := 3,
          columns := [("Position.x",
            { bytes := [10, 11, 12, 13, 20, 21, 22, 23, 30, 31, 32, 33], elem_size := 4 })] }
        ["Position.x", "Missing.col"] 2 1 [[9, 9, 9, 9], [8, 8, 8, 8], [7, 7, 7, 7], [6, 6, 6, 6]]).getD
      2 [] = [7, 7, 7, 7] := by
  constructor
  · have h := (acquire_matrix_block_spec
      { arch := 1, len := 3,
        columns := [("Position.x",
          { bytes := [10, 11, 12, 13, 20, 21, 22, 23, 30, 31, 32, 33], elem_size := 4 })] }
      ["Position.x", "Missing.col"] 2 1
      [[9, 9, 9, 9], [8, 8, 8, 8], [7, 7, 7, 7], [6, 6, 6, 6]] (by decide)).1 0 (by decide)
      { bytes := [10, 11, 12, 13, 20, 21, 22, 23, 30, 31, 32, 33], elem_size := 4 } (by decide)
      0 (by decide) (by decide)
    simpa using h
  · have h := (acquire_matrix_block_spec
      { arch := 1, len := 3,
        columns := [("Position.x",
          { bytes := [10, 11, 12, 13, 20, 21, 22, 23, 30, 31, 32, 33], elem_size := 4 })] }
      ["Position.x", "Missing.col"] 2 1
      [[9, 9, 9, 9], [8, 8, 8, 8], [7, 7, 7, 7], [6, 6, 6, 6]] (by decide)).2 1 (by decide)
      (by decide) 0 (by decide)
    simpa using h

/-- C8 (confirmed). `note_frame_end` updates the per-view EWMA with mixing
factor 0.2: `mean_us`, `warp_eff`, `p95_us`, `p99_us` seed with the observed
value when the stored value is 0 and otherwise become `0.8*old + 0.2*obs`;
consequently, on a fresh view one sample with `time_us = 100` gives EWMA
mean 100 and `aggregate(v, 1).mean_us = 100`, and a second sample with
`time_us = 200` gives EWMA mean `0.8*100 + 0.2*200 = 120`. -/
theorem note_frame_end_ewma :
    (∀ (E : FrameAgg) (s : Sample),
      (noteFrameEnd E s).mean_us =
        (if E.mean_us = 0 then (s.time_us : ℚ) else 0.8 * E.mean_us + 0.2 * s.time_us) ∧
      (noteFrameEnd E s).warp_eff =
        (if E.warp_eff = 0 then s.warp_eff else 0.8 * E.warp_eff + 0.2 * s.warp_eff) ∧
      (noteFrameEnd E s).p95_us =
        (if E.p95_us = 0 then (s.p95_tile_us : ℚ) else 0.8 * E.p95_us + 0.2 * s.p95_tile_us) ∧
      (noteFrameEnd E s).p99_us =
        (if E.p99_us = 0 then (s.p99_tile_us : ℚ) else 0.8 * E.p99_us + 0.2 * s.p99_tile_us)) ∧
    (noteFrameEnd {} { time_us := 100 }).mean_us = 100 ∧
    (aggregate [{ time_us := 100 }] 1).mean_us = 100 ∧
    (noteFrameEnd (noteFrameEnd {} { time_us := 100 }) { time_us := 200 }).mean_us = 120 := by
  refine ⟨?_, by norm_num [noteFrameEnd], by norm_num [aggregate],
    by norm_num [noteFrameEnd]⟩
  intro E s
  refine ⟨?_, ?_, ?_, ?_⟩
  · by_cases h : E.mean_us = 0
    · simp [noteFrameEnd, h]
    · simp only [noteFrameEnd, if_neg h]
      ring_nf
  · by_cases h : E.warp_eff = 0
    · simp [noteFrameEnd, h]
    · simp only [noteFrameEnd, if_neg h]
      ring_nf
  · by_cases h : E.p95_us = 0
    · simp [noteFrameEnd, h]
    · simp only [noteFrameEnd, if_neg h]
      ring_nf
  · by_cases h : E.p99_us = 0
    · simp [noteFrameEnd, h]
    · simp only [noteFrameEnd, if_neg h]
      ring_nf

/-- C6 counterexample. The atom `"mean_us > x"` has a recognized operator
but `"x"` fails `std::stod`, which throws `std::invalid_argument`: the atom
evaluation errors out instead of returning `false` with no error. -/
theorem eval_atom_malformed_rhs_throws :
    eval_atom "mean_us > x".toList {} = Except.error () ∧
    eval_atom "mean_us > x".toList {} ≠ Except.ok false := by
  have h1 : eval_atom "mean_us > x".toList {} = Except.error () := rfl
  refine ⟨h1, ?_⟩
  intro h
  rw [h1] at h
  exact Except.noConfusion h

/-- C6 (amended). An atom containing no recognized comparison operator
evaluates to `false` with no error; an unknown field name evaluates to the
value 0, so `"foo == 0"` evaluates to `true`; but an atom whose right-hand
side fails to parse as a number makes `std::stod` throw (an error, not
`false`). -/
theorem eval_atom_spec :
    (∀ (expr : List Char) (a : FrameAgg), findOp (trim expr) = none →
      eval_atom expr a = Except.ok false) ∧
    (∀ (name : String) (a : FrameAgg),
      name ∉ (["mean_us", "p95_us", "p99_us", "warp_eff", "branch_div",
               "mem_coalesce", "l2_miss", "tail_ratio"] : List String) →
      field_value name a = 0) ∧
    (∀ a : FrameAgg, eval_atom "foo == 0".toList a = Except.ok true) ∧
    (∀ a : FrameAgg, eval_atom "mean_us > x".toList a = Except.error ()) := by
  refine ⟨?_, ?_, ?_, ?_⟩
  · intro expr a h
    simp only [eval_atom, h]
  · intro name a hn
    simp only [List.mem_cons, List.not_mem_nil, or_false, not_or] at hn
    obtain ⟨h1, h2, h3, h4, h5, h6, h7, h8⟩ := hn
    simp only [field_value, if_neg h1, if_neg h2, if_neg h3, if_neg h4, if_neg h5, if_neg h6,
      if_neg h7, if_neg h8]
  · intro a
    have key : eval_atom "foo == 0".toList a =
        Except.ok (decide (|field_value (String.mk ['f', 'o', 'o']) a -
          (((0 : Nat) : ℚ) + ((0 : Nat) : ℚ) / (10 : ℚ) ^ (0 : Nat))| <
            1 / 1000000000)) := rfl
    have hfv : field_value (String.mk ['f', 'o', 'o']) a = 0 := rfl
    rw [key, hfv]
    norm_num
  · intro a
    rfl

/-- Witness for C6 at concrete inputs. -/
theorem eval_atom_spec_witness :
    eval_atom "no operator here".toList {} = Except.ok false ∧
    field_value "foo" {} = 0 ∧
    eval_atom "foo == 0".toList {} = Except.ok true :=
  ⟨eval_atom_spec.1 "no operator here".toList {} (by rfl),
   eval_atom_spec.2.1 "foo" {} (by decide),
   eval_atom_spec.2.2.1 {}⟩

/-- C7 counterexample. A persisted file holding `"a_div": 0.5` is loaded
with no clamping: the coefficient leaves `[0, 0.25]`. -/
theorem scheduler_load_state_no_clamp :
    (scheduler_load_state "\x7b\"a_div\": 0.5\x7d".toList {}).a_div = 1 / 2 ∧
    ¬ (scheduler_load_state "\x7b\"a_div\": 0.5\x7d".toList {}).a_div ≤ 1 / 4 := by
  have key : (scheduler_load_state "\x7b\"a_div\": 0.5\x7d".toList {}).a_div =
      ((0 : Nat) : ℚ) + ((5 : Nat) : ℚ) / (10 : ℚ) ^ (1 : Nat) := rfl
  have h : (scheduler_load_state "\x7b\"a_div\": 0.5\x7d".toList {}).a_div = 1 / 2 := by
    rw [key]; norm_num
  exact ⟨h, by rw [h]; norm_num⟩

/-- `applyCand` does not change the learning coefficients. -/
theorem applyCand_learn (agg : Nat → FrameAgg) (st : SchedState) (c : Cand) :
    (applyCand agg st c).learn = st.learn := rfl

/-- A fold of `applyCand` does not change the learning coefficients. -/
theorem foldl_applyCand_learn (agg : Nat → FrameAgg) (l : List Cand) (st : SchedState) :
    (l.foldl (applyCand agg) st).learn = st.learn := by
  induction l generalizing st with
  | nil => rfl
  | cons c l ih => rw [List.foldl_cons, ih, applyCand_learn]

/-- A single deferred-learning step keeps the coefficients in `[0, 0.25]`:
either it leaves them unchanged, or it writes values clamped by
`max(0, min(0.25, ·))`. -/
theorem learnStep_inRange (agg : Nat → FrameAgg) (st : SchedState) (e : Nat × Int)
    (h : inRange st.learn) : inRange (learnStep agg st e).learn := by
  unfold learnStep
  split
  · exact h
  · split
    · exact h
    · dsimp only
      repeat' split
      all_goals first
      | exact h
      | exact ⟨le_max_left 0 _, max_le (by norm_num) ((min_le_left _ _).trans (by norm_num)),
          le_max_left 0 _, max_le (by norm_num) ((min_le_left _ _).trans (by norm_num)),
          le_max_left 0 _, max_le (by norm_num) ((min_le_left _ _).trans (by norm_num))⟩

/-- A fold of deferred-learning steps keeps the coefficients in range. -/
theorem foldl_learnStep_inRange (agg : Nat → FrameAgg) (l : List (Nat × Int))
    (st : SchedState) (h : inRange st.learn) :
    inRange (l.foldl (learnStep agg) st).learn := by
  induction l generalizing st with
  | nil => exact h
  | cons e l ih => exact ih _ (learnStep_inRange agg st e h)

/-- C7 (amended). The learning coefficients start at the defaults
0.06 / 0.04 / 0.02, all in `[0, 0.25]`, and every end-of-frame evaluation
(whose deferred learning steps clamp with `max(0, min(0.25, ·))`) keeps
them in `[0, 0.25]`; `scheduler_load_state`, however, assigns the parsed
file values with NO clamping — the invariant survives loading only when
the values parsed from the file are themselves within `[0, 0.25]`. -/
theorem learn_coeff_bounds :
    (({} : LearnState).a_div = 0.06 ∧ ({} : LearnState).a_mem = 0.04 ∧
      ({} : LearnState).a_tail = 0.02 ∧ inRange ({} : LearnState)) ∧
    (∀ (agg : Nat → FrameAgg) (bytes : Nat → Nat) (st : SchedState)
      (r : SchedState × List Cand),
      scheduler_on_end_frame agg bytes st = Except.ok r →
      inRange st.learn → inRange r.1.learn) ∧
    (∀ (content : List Char) (L : LearnState), inRange L →
      (∀ q, findNum content ('"' :: ("a_div".toList ++ ['"'])) = some q →
        0 ≤ q ∧ q ≤ 1 / 4) →
      (∀ q, findNum content ('"' :: ("a_mem".toList ++ ['"'])) = some q →
        0 ≤ q ∧ q ≤ 1 / 4) →
      (∀ q, findNum content ('"' :: ("a_tail".toList ++ ['"'])) = some q →
        0 ≤ q ∧ q ≤ 1 / 4) →
      inRange (scheduler_load_state content L)) := by
  refine ⟨⟨rfl, rfl, rfl, by norm_num [inRange]⟩, ?_, ?_⟩
  · intro agg bytes st r h hin
    unfold scheduler_on_end_frame at h
    cases hc : collectViews agg bytes st.learn st.policy.triggers (List.range' 1 64)
        st.cooldown with
    | error e => rw [hc] at h; exact absurd h (by simp [Except.bind])
    | ok cdCands =>
      rw [hc] at h
      have h2 := Except.ok.inj h
      rw [← h2]
      apply foldl_learnStep_inRange
      rw [foldl_applyCand_learn]
      exact hin
  · intro content L hL hd hm ht
    unfold scheduler_load_state
    refine ⟨?_, ?_, ?_, ?_, ?_, ?_⟩ <;>
      simp only
    · cases hq : findNum content ('"' :: ("a_div".toList ++ ['"'])) with
      | none => simpa [hq] using hL.1
      | some q => simpa [hq] using (hd q hq).1
    · cases hq : findNum content ('"' :: ("a_div".toList ++ ['"'])) with
      | none => simpa [hq] using hL.2.1
      | some q => simpa [hq] using (hd q hq).2
    · cases hq : findNum content ('"' :: ("a_mem".toList ++ ['"'])) with
      | none => simpa [hq] using hL.2.2.1
      | some q => simpa [hq] using (hm q hq).1
    · cases hq : findNum content ('"' :: ("a_mem".toList ++ ['"'])) with
      | none => simpa [hq] using hL.2.2.2.1
      | some q => simpa [hq] using (hm q hq).2
    · cases hq : findNum content ('"' :: ("a_tail".toList ++ ['"'])) with
      | none => simpa [hq] using hL.2.2.2.2.1
      | some q => simpa [hq] using (ht q hq).1
    · cases hq : findNum content ('"' :: ("a_tail".toList ++ ['"'])) with
      | none => simpa [hq] using hL.2.2.2.2.2
      | some q => simpa [hq] using (ht q hq).2

/-- Witness for C7 at concrete inputs: an all-skipping frame and loading a
file that sets `a_div` to the in-range value 0.1. -/
theorem learn_coeff_bounds_witness :
    inRange ({} : LearnState) ∧
    inRange (scheduler_load_state "\x7b\"a_div\": 0.1\x7d".toList {}) := by
  have hload : findNum ("\x7b\"a_div\": 0.1\x7d".toList)
      ('"' :: ("a_div".toList ++ ['"'])) =
      some (((0 : Nat) : ℚ) + ((1 : Nat) : ℚ) / (10 : ℚ) ^ (1 : Nat)) := rfl
  refine ⟨(learn_coeff_bounds.1).2.2.2, ?_⟩
  apply learn_coeff_bounds.2.2 _ _ (learn_coeff_bounds.1).2.2.2
  · intro q hq
    rw [hload] at hq
    cases hq
    norm_num
  · intro q hq
    have : findNum ("\x7b\"a_div\": 0.1\x7d".toList)
        ('"' :: ("a_mem".toList ++ ['"'])) = none := by rfl
    rw [this] at hq
    cases hq
  · intro q hq
    have : findNum ("\x7b\"a_div\": 0.1\x7d".toList)
        ('"' :: ("a_tail".toList ++ ['"'])) = none := by rfl
    rw [this] at hq
    cases hq

/-- C9 counterexample. From a fresh process state, `init` then `shutdown`
then `init` again: the second `init` is swallowed by `std::call_once`
(`g_once` never resets), so no re-initialization happens — `g_inited`
stays `false` and the persisted state is not reloaded, contradicting
"subsequent init starts fresh". -/
theorem init_after_shutdown_ignored :
    dynsoa_init (dynsoa_shutdown (dynsoa_init {})) = dynsoa_shutdown (dynsoa_init {}) ∧
    (dynsoa_init (dynsoa_shutdown (dynsoa_init {}))).inited = false := by
  constructor
  · rfl
  · rfl

/-- `dynsoa_shutdown` never changes the once-flag. -/
theorem dynsoa_shutdown_once (s : Lifecycle) :
    (dynsoa_shutdown s).once_used = s.once_used := by
  unfold dynsoa_shutdown
  split <;> rfl

/-- C9 (amended). `init` is one-time and idempotent (the first call wins;
a second call while initialized is ignored) and the first call loads the
persisted `LearnState`; `shutdown` persists the `LearnState` and clears the
inited flag; but a subsequent `init` after `shutdown` is ALSO ignored
(`std::call_once` never re-runs), so the runtime does not start fresh: no
re-initialization and no reload of the persisted state happens. -/
theorem lifecycle_spec :
    (∀ s : Lifecycle, dynsoa_init (dynsoa_init s) = dynsoa_init s) ∧
    (∀ s : Lifecycle, s.once_used = false →
      dynsoa_init s = { s with once_used := true, inited := true, learn := s.persisted }) ∧
    (∀ s : Lifecycle, s.inited = true →
      dynsoa_shutdown s = { s with persisted := s.learn, inited := false }) ∧
    (∀ s : Lifecycle,
      dynsoa_init (dynsoa_shutdown (dynsoa_init s)) = dynsoa_shutdown (dynsoa_init s)) := by
  refine ⟨?_, ?_, ?_, ?_⟩
  · intro s
    unfold dynsoa_init
    by_cases h : s.once_used
    · simp [h]
    · simp [h]
  · intro s h
    unfold dynsoa_init
    rw [if_neg (by rw [h]; exact Bool.false_ne_true)]
  · intro s h
    unfold dynsoa_shutdown
    rw [if_pos h]
  · intro s
    have honce : (dynsoa_shutdown (dynsoa_init s)).once_used = true := by
      rw [dynsoa_shutdown_once]
      unfold dynsoa_init
      by_cases h : s.once_used
      · rw [if_pos h]; exact h
      · rw [if_neg h]
    generalize hgen : dynsoa_shutdown (dynsoa_init s) = t at honce ⊢
    unfold dynsoa_init
    rw [if_pos honce]

/-- Witness for C9 at a concrete lifecycle state. -/
theorem lifecycle_spec_witness :
    dynsoa_init
        ({ persisted := { a_div := 0.1, a_mem := 0.2, a_tail := 0.01 } } : Lifecycle) =
      { once_used := true, inited := true,
        learn := { a_div := 0.1, a_mem := 0.2, a_tail := 0.01 },
        persisted := { a_div := 0.1, a_mem := 0.2, a_tail := 0.01 } } ∧
    dynsoa_shutdown
        ({ once_used := true, inited := true, learn := { a_div := 0.1, a_mem := 0.2, a_tail := 0.01 },
           persisted := {} } : Lifecycle) =
      { once_used := true, inited := false,
        learn := { a_div := 0.1, a_mem := 0.2, a_tail := 0.01 },
        persisted := { a_div := 0.1, a_mem := 0.2, a_tail := 0.01 } } :=
  ⟨lifecycle_spec.2.1 _ rfl, lifecycle_spec.2.2.1 _ rfl⟩

/-- `Except` bind on a success value reduces to the continuation. -/
theorem except_bind_ok {α β : Type} (a : α) (f : α → Except Unit β) :
    (Except.ok a >>= f : Except Unit β) = f a := rfl

/-- `Except` bind on an error short-circuits. -/
theorem except_bind_error {α β : Type} (e : Unit) (f : α → Except Unit β) :
    (Except.error e >>= f : Except Unit β) = Except.error e := rfl

/-- A plan built by `trigger_plan` with target `SoA` (a `RETILE_SOA` trigger
or an unknown action string) keeps the default estimates 0/0. -/
theorem trigger_plan_soa (a : FrameAgg) (bytes : Nat) (L : LearnState) (t : PolicyTrigger)
    (h : (trigger_plan a bytes L t).toL = LayoutKind.SoA) :
    (trigger_plan a bytes L t).est_gain_us = 0 ∧ (trigger_plan a bytes L t).est_cost_us = 0 := by
  unfold trigger_plan at h ⊢
  by_cases h1 : t.action = "RETILE_AOSOA"
  · rw [if_pos h1] at h
    exact absurd h (by simp [plan_aosoa])
  · rw [if_neg h1] at h ⊢
    by_cases h2 : t.action = "RETILE_SOA"
    · rw [if_pos h2]
      exact ⟨rfl, rfl⟩
    · rw [if_neg h2] at h ⊢
      by_cases h3 : t.action = "PACK_MATRIX"
      · rw [if_pos h3] at h
        exact absurd h (by simp [plan_matrix])
      · rw [if_neg h3]
        exact ⟨rfl, rfl⟩

/-- The score of a `toL = SoA` candidate plan is 0 and fails the 0.05
filter. -/
theorem trigger_plan_soa_score (a : FrameAgg) (bytes : Nat) (L : LearnState)
    (t : PolicyTrigger) (h : (trigger_plan a bytes L t).toL = LayoutKind.SoA) :
    t.priority * ((trigger_plan a bytes L t).est_gain_us /
      max 1 (trigger_plan a bytes L t).est_cost_us) = 0 ∧
    ¬ (t.priority * ((trigger_plan a bytes L t).est_gain_us /
      max 1 (trigger_plan a bytes L t).est_cost_us) > (0.05 : ℚ)) := by
  obtain ⟨hg, hc⟩ := trigger_plan_soa a bytes L t h
  rw [hg, hc]
  norm_num

/-- Soundness of the per-view trigger loop: every produced candidate
belongs to this view, passed the 0.05 score filter, and never targets
`SoA`. -/
theorem viewCands_sound (a : FrameAgg) (bytes : Nat) (L : LearnState) (v : Nat)
    (ts : List PolicyTrigger) (cs : List Cand)
    (h : viewCands a bytes L v ts = Except.ok cs) :
    ∀ c ∈ cs, c.v = v ∧ c.score > (0.05 : ℚ) ∧ c.plan.toL ≠ LayoutKind.SoA := by
  induction ts generalizing cs with
  | nil =>
    cases h
    intro c hc
    exact absurd hc (List.not_mem_nil c)
  | cons t ts ih =>
    unfold viewCands at h
    cases hb : eval_pred t.when.toList a with
    | error e =>
      rw [hb, except_bind_error] at h
      exact Except.noConfusion h
    | ok b =>
      rw [hb, except_bind_ok] at h
      dsimp only at h
      cases hrest : viewCands a bytes L v ts with
      | error e =>
        rw [hrest, except_bind_error] at h
        exact Except.noConfusion h
      | ok rest =>
        rw [hrest, except_bind_ok] at h
        by_cases hbv : b = true
        · rw [if_pos hbv] at h
          by_cases hsc : t.priority * ((trigger_plan a bytes L t).est_gain_us /
              max 1 (trigger_plan a bytes L t).est_cost_us) > 0.05
          · rw [if_pos hsc] at h
            have hinj := Except.ok.inj h
            intro c hc
            rw [← hinj] at hc
            rcases List.mem_cons.mp hc with rfl | hmem
            · refine ⟨rfl, hsc, ?_⟩
              intro hsoa
              exact (trigger_plan_soa_score a bytes L t hsoa).2 hsc
            · exact ih rest hrest c hmem
          · rw [if_neg hsc] at h
            have hinj := Except.ok.inj h
            intro c hc
            rw [← hinj] at hc
            exact ih rest hrest c hc
        · rw [if_neg hbv] at h
          have hinj := Except.ok.inj h
          intro c hc
          rw [← hinj] at hc
          exact ih rest hrest c hc

/-- Soundness of the view loop: every collected candidate comes from a view
in the processed list, passed the score filter, and never targets `SoA`. -/
theorem collectViews_sound (agg : Nat → FrameAgg) (bytes : Nat → Nat) (L : LearnState)
    (trg : List PolicyTrigger) (vs : List Nat) (cd : List (Nat × Int))
    (res : List (Nat × Int) × List Cand)
    (h : collectViews agg bytes L trg vs cd = Except.ok res) :
    ∀ c ∈ res.2, c.v ∈ vs ∧ c.score > (0.05 : ℚ) ∧ c.plan.toL ≠ LayoutKind.SoA := by
  induction vs generalizing cd res with
  | nil =>
    cases h
    intro c hc
    exact absurd hc (List.not_mem_nil c)
  | cons v vs ih =>
    unfold collectViews at h
    by_cases h1 : (agg v).mean_us = 0 ∧ (agg v).p95_us = 0
    · rw [if_pos h1] at h
      intro c hc
      obtain ⟨hm, hs⟩ := ih cd res h c hc
      exact ⟨List.mem_cons_of_mem _ hm, hs⟩
    · rw [if_neg h1] at h
      by_cases h2 : aget cd v 0 > 0
      · rw [if_pos h2] at h
        intro c hc
        obtain ⟨hm, hs⟩ := ih _ res h c hc
        exact ⟨List.mem_cons_of_mem _ hm, hs⟩
      · rw [if_neg h2] at h
        cases hcs : viewCands (agg v) (bytes v) L v trg with
        | error e =>
          rw [hcs, except_bind_error] at h
          exact Except.noConfusion h
        | ok cs =>
          rw [hcs, except_bind_ok] at h
          cases hrest : collectViews agg bytes L trg vs cd with
          | error e =>
            rw [hrest, except_bind_error] at h
            exact Except.noConfusion h
          | ok cdRest =>
            rw [hrest, except_bind_ok] at h
            have hinj := Except.ok.inj h
            intro c hc
            rw [← hinj] at hc
            rcases List.mem_append.mp hc with hmem | hmem
            · obtain ⟨hv, hs⟩ := viewCands_sound _ _ _ _ _ _ hcs c hmem
              exact ⟨hv ▸ List.mem_cons_self _ _, hs⟩
            · obtain ⟨hm, hs⟩ := ih cd cdRest hrest c hmem
              exact ⟨List.mem_cons_of_mem _ hm, hs⟩

/-- The admission loop only returns candidates from its input list. -/
theorem admitFilter_mem (l : List Cand) (used : Int) (c : Cand)
    (h : c ∈ admitFilter l used) : c ∈ l := by
  induction l generalizing used with
  | nil => exact absurd h (List.not_mem_nil c)
  | cons d l ih =>
    unfold admitFilter at h
    by_cases hc : used + cppTrunc d.plan.est_cost_us ≤ 200000
    · rw [if_pos hc] at h
      rcases List.mem_cons.mp h with rfl | hmem
      · exact List.mem_cons_self _ _
      · exact List.mem_cons_of_mem _ (ih _ hmem)
    · rw [if_neg hc] at h
      exact List.mem_cons_of_mem _ (ih _ h)

/-- A view whose 3-frame aggregate is all zero is skipped by the view loop;
if every view in the list is in that state, the loop collects nothing and
leaves the cool-off map unchanged. -/
theorem collectViews_skipAll (agg : Nat → FrameAgg) (bytes : Nat → Nat) (L : LearnState)
    (trg : List PolicyTrigger) (vs : List Nat) (cd : List (Nat × Int))
    (hskip : ∀ v ∈ vs, (agg v).mean_us = 0 ∧ (agg v).p95_us = 0) :
    collectViews agg bytes L trg vs cd = Except.ok (cd, []) := by
  induction vs with
  | nil => rfl
  | cons v vs ih =>
    unfold collectViews
    rw [if_pos (hskip v (List.mem_cons_self _ _))]
    exact ih (fun v hv => hskip v (List.mem_cons_of_mem _ hv))

/-- An end-of-frame evaluation over all-idle views applies nothing and
leaves the default state unchanged. -/
theorem end_frame_idle :
    scheduler_on_end_frame (fun _ => {}) (fun _ => 0) {} = Except.ok ({}, []) := by
  unfold scheduler_on_end_frame
  rw [collectViews_skipAll (fun _ => {}) (fun _ => 0) ({} : SchedState).learn
    ({} : SchedState).policy.triggers (List.range' 1 64) ({} : SchedState).cooldown
    (fun v _ => ⟨rfl, rfl⟩), except_bind_ok]
  simp only [List.mergeSort_nil]
  rfl

/-- Every candidate applied by an end-of-frame evaluation came through the
candidate collection and the score filter. -/
theorem end_frame_applied_sound (agg : Nat → FrameAgg) (bytes : Nat → Nat)
    (st : SchedState) (r : SchedState × List Cand)
    (h : scheduler_on_end_frame agg bytes st = Except.ok r) :
    ∀ c ∈ r.2, c.v ∈ List.range' 1 64 ∧ c.score > (0.05 : ℚ) ∧
      c.plan.toL ≠ LayoutKind.SoA := by
  unfold scheduler_on_end_frame at h
  cases hc : collectViews agg bytes st.learn st.policy.triggers (List.range' 1 64)
      st.cooldown with
  | error e =>
    rw [hc, except_bind_error] at h
    exact Except.noConfusion h
  | ok cdCands =>
    rw [hc, except_bind_ok] at h
    have hinj := Except.ok.inj h
    intro c hcmem
    rw [← hinj] at hcmem
    have hsorted : c ∈ cdCands.2.mergeSort candLE := admitFilter_mem _ _ _ hcmem
    have hcands : c ∈ cdCands.2 := List.mem_mergeSort.mp hsorted
    exact collectViews_sound agg bytes st.learn st.policy.triggers _ st.cooldown cdCands hc
      c hcands

/-- C10 (confirmed). A `RETILE_SOA` trigger builds the default plan with
`est_gain_us = est_cost_us = 0`, so its score
`priority * (0 / max(1, 0)) = 0` never exceeds the 0.05 candidate
threshold; consequently no end-of-frame evaluation ever applies a plan
targeting `SoA` (for any policy, state and metrics). -/
theorem retile_soa_never_applied :
    (∀ (a : FrameAgg) (bytes : Nat) (L : LearnState) (t : PolicyTrigger),
      t.action = "RETILE_SOA" →
      trigger_plan a bytes L t = { toL := LayoutKind.SoA } ∧
      t.priority * ((trigger_plan a bytes L t).est_gain_us /
        max 1 (trigger_plan a bytes L t).est_cost_us) = 0 ∧
      ¬ (t.priority * ((trigger_plan a bytes L t).est_gain_us /
        max 1 (trigger_plan a bytes L t).est_cost_us) > (0.05 : ℚ))) ∧
    (∀ (agg : Nat → FrameAgg) (bytes : Nat → Nat) (st : SchedState)
      (r : SchedState × List Cand),
      scheduler_on_end_frame agg bytes st = Except.ok r →
      ∀ c ∈ r.2, c.plan.toL ≠ LayoutKind.SoA) := by
  constructor
  · intro a bytes L t ht
    have hplan : trigger_plan a bytes L t = { toL := LayoutKind.SoA } := by
      unfold trigger_plan
      rw [ht, if_neg (by decide : ¬("RETILE_SOA" : String) = "RETILE_AOSOA"), if_pos rfl]
    have hsoa : (trigger_plan a bytes L t).toL = LayoutKind.SoA := by rw [hplan]
    exact ⟨hplan, (trigger_plan_soa_score a bytes L t hsoa).1,
      (trigger_plan_soa_score a bytes L t hsoa).2⟩
  · intro agg bytes st r h c hc
    exact (end_frame_applied_sound agg bytes st r h c hc).2.2

/-- Witness for C10 at concrete inputs: a concrete `RETILE_SOA` trigger, and
an end-of-frame evaluation over all-idle views (which applies nothing). -/
theorem retile_soa_never_applied_witness :
    trigger_plan {} 0 {} { when := "mean_us >= 0", action := "RETILE_SOA" } =
      { toL := LayoutKind.SoA } ∧
    (∀ c ∈ (({} : SchedState), ([] : List Cand)).2, c.plan.toL ≠ LayoutKind.SoA) :=
  ⟨(retile_soa_never_applied.1 {} 0 {}
      { when := "mean_us >= 0", action := "RETILE_SOA" } rfl).1,
   retile_soa_never_applied.2 (fun _ => {}) (fun _ => 0) {} ({}, []) end_frame_idle⟩

/-- The admission loop respects the 200000 µs budget on the truncated
costs: starting from `used ≤ 200000`, the truncated costs of all admitted
candidates fit in the remaining budget. -/
theorem admitFilter_budget (l : List Cand) (used : Int) (h : used ≤ 200000) :
    used + ((admitFilter l used).map (fun c => cppTrunc c.plan.est_cost_us)).sum ≤ 200000 := by
  induction l generalizing used with
  | nil => simpa [admitFilter] using h
  | cons c l ih =>
    unfold admitFilter
    by_cases hc : used + cppTrunc c.plan.est_cost_us ≤ 200000
    · rw [if_pos hc]
      have := ih (used + cppTrunc c.plan.est_cost_us) hc
      simp only [List.map_cons, List.sum_cons]
      omega
    · rw [if_neg hc]
      exact ih used h

/-- Evaluation of `mergeSort` on a two-element list. -/
theorem mergeSort_pair {α : Type} (le : α → α → Bool) (a b : α) :
    [a, b].mergeSort le = if le a b then [a, b] else [b, a] := by
  rw [List.mergeSort]
  simp [List.splitInTwo, List.splitAt, List.splitAt.go, List.merge]

/-- The demo predicate `"mean_us >= 0"` parses to the comparison
`mean_us ≥ 0` (kernel computation of the string scan). -/
theorem eval_pred_mean_ge_zero (a : FrameAgg) (h : 0 ≤ a.mean_us) :
    eval_pred "mean_us >= 0".toList a = Except.ok true := by
  have hrfl : eval_pred "mean_us >= 0".toList a =
      Except.ok (decide (a.mean_us ≥
        ((0 : Nat) : ℚ) + ((0 : Nat) : ℚ) / (10 : ℚ) ^ (0 : Nat))) := rfl
  have hX : ((0 : Nat) : ℚ) + ((0 : Nat) : ℚ) / (10 : ℚ) ^ (0 : Nat) = 0 := by norm_num
  rw [hrfl, hX, decide_eq_true h]

/-- The trigger loop over a single trigger whose predicate holds and whose
candidate passes the score filter produces exactly that candidate. -/
theorem viewCands_single (a : FrameAgg) (bytes : Nat) (L : LearnState) (v : Nat)
    (t : PolicyTrigger) (hb : eval_pred t.when.toList a = Except.ok true)
    (hsc : t.priority * ((trigger_plan a bytes L t).est_gain_us /
      max 1 (trigger_plan a bytes L t).est_cost_us) > 0.05) :
    viewCands a bytes L v [t] =
      Except.ok [Cand.mk v (trigger_plan a bytes L t)
        (t.priority * ((trigger_plan a bytes L t).est_gain_us /
          max 1 (trigger_plan a bytes L t).est_cost_us))] := by
  unfold viewCands
  rw [hb, except_bind_ok]
  rw [show viewCands a bytes L v [] = Except.ok [] from rfl, except_bind_ok]
  dsimp only
  rw [if_pos rfl, if_pos hsc]
  rfl

/-- The always-true demo trigger builds the tile-128 AoSoA plan. -/
theorem trigger_plan_always (a : FrameAgg) (bytes : Nat) (L : LearnState) :
    trigger_plan a bytes L trigAlways = plan_aosoa bytes a L 128 := by
  unfold trigger_plan
  rw [if_pos (show trigAlways.action = "RETILE_AOSOA" from rfl)]
  rfl

/-- The active branch of the view loop: a busy view not on cool-off
contributes its trigger candidates in front of the rest. -/
theorem collectViews_cons_active (agg : Nat → FrameAgg) (bytes : Nat → Nat) (L : LearnState)
    (trg : List PolicyTrigger) (v : Nat) (vs : List Nat) (cd : List (Nat × Int))
    (cs : List Cand) (cdRest : List (Nat × Int) × List Cand)
    (h1 : ¬ ((agg v).mean_us = 0 ∧ (agg v).p95_us = 0))
    (h2 : ¬ (aget cd v 0 > 0))
    (hcs : viewCands (agg v) (bytes v) L v trg = Except.ok cs)
    (hrest : collectViews agg bytes L trg vs cd = Except.ok cdRest) :
    collectViews agg bytes L trg (v :: vs) cd = Except.ok (cdRest.1, cs ++ cdRest.2) := by
  unfold collectViews
  rw [if_neg h1, if_neg h2, hcs, except_bind_ok, hrest, except_bind_ok]
  rfl

/-- The cool-off branch of the view loop: a busy view on cool-off is
skipped and its counter decremented. -/
theorem collectViews_cons_cooldown (agg : Nat → FrameAgg) (bytes : Nat → Nat)
    (L : LearnState) (trg : List PolicyTrigger) (v : Nat) (vs : List Nat)
    (cd : List (Nat × Int))
    (h1 : ¬ ((agg v).mean_us = 0 ∧ (agg v).p95_us = 0))
    (h2 : aget cd v 0 > 0) :
    collectViews agg bytes L trg (v :: vs) cd =
      collectViews agg bytes L trg vs (aset cd v (aget cd v 0 - 1)) := by
  conv_lhs => rw [collectViews]
  rw [if_neg h1, if_pos h2]

/-- Aggregate of a single high-divergence busy sample. -/
theorem aggHi_eval :
    aggregate [sHi] 3 =
      { mean_us := 1000000, warp_eff := 2, branch_div := 0.9, mem_coalesce := 2 } := by
  norm_num [aggregate, sHi]

/-- Aggregate of a single moderate-divergence busy sample. -/
theorem aggLo_eval :
    aggregate [sLo] 3 =
      { mean_us := 1000000, warp_eff := 2, branch_div := 0.4, mem_coalesce := 2 } := by
  norm_num [aggregate, sLo]

/-- Plan of the overshoot scenario: cost is the non-integer 200000.5 µs. -/
theorem plan_big_eval :
    plan_aosoa 819202048 (aggregate [sHi] 3) {} 128 =
      { toL := LayoutKind.AoSoA, tile_or_block := 128, est_cost_us := 400001 / 2,
        est_gain_us := 45000 } := by
  rw [aggHi_eval]
  norm_num [plan_aosoa, max_def, min_def]

/-- Plans of the budget-gating scenario: both cost exactly 150000 µs, view
1's has the larger gain. -/
theorem plan_two_eval :
    plan_aosoa 614400000 (aggregate [sHi] 3) {} 128 =
      { toL := LayoutKind.AoSoA, tile_or_block := 128, est_cost_us := 150000,
        est_gain_us := 45000 } ∧
    plan_aosoa 614400000 (aggregate [sLo] 3) {} 128 =
      { toL := LayoutKind.AoSoA, tile_or_block := 128, est_cost_us := 150000,
        est_gain_us := 15000 } := by
  rw [aggHi_eval, aggLo_eval]
  constructor <;> norm_num [plan_aosoa, max_def, min_def]

/-- All views other than 1 are idle in the overshoot scenario. -/
theorem aggOne_skip : ∀ v ∈ List.range' 2 63, (aggOne v).mean_us = 0 ∧ (aggOne v).p95_us = 0 := by
  intro v hv
  have h2 := (List.mem_range'_1.mp hv).1
  have hne : v ≠ 1 := by omega
  rw [show aggOne v = aggregate [] 3 from by unfold aggOne; rw [if_neg hne]]
  exact ⟨rfl, rfl⟩

/-- All views other than 1 and 2 are idle in the budget-gating scenario. -/
theorem aggTwo_skip : ∀ v ∈ List.range' 3 62, (aggTwo v).mean_us = 0 ∧ (aggTwo v).p95_us = 0 := by
  intro v hv
  have h3 := (List.mem_range'_1.mp hv).1
  have hne1 : v ≠ 1 := by omega
  have hne2 : v ≠ 2 := by omega
  rw [show aggTwo v = aggregate [] 3 from by unfold aggTwo; rw [if_neg hne1, if_neg hne2]]
  exact ⟨rfl, rfl⟩

/-- Candidate collection of the overshoot scenario: exactly one candidate,
for view 1, with the fractional cost 200000.5 µs. -/
theorem collect_big :
    collectViews aggOne bytesBig {} polAlways.triggers (List.range' 1 64) [] =
      Except.ok ([], [Cand.mk 1
        (RetilePlan.mk LayoutKind.AoSoA 128 (400001 / 2) 45000) (90000 / 400001)]) := by
  have hb : eval_pred trigAlways.when.toList (aggregate [sHi] 3) = Except.ok true := by
    rw [show trigAlways.when = "mean_us >= 0" from rfl]
    apply eval_pred_mean_ge_zero
    rw [aggHi_eval]
    norm_num
  have hsc : trigAlways.priority *
      ((trigger_plan (aggregate [sHi] 3) 819202048 {} trigAlways).est_gain_us /
        max 1 (trigger_plan (aggregate [sHi] 3) 819202048 {} trigAlways).est_cost_us) >
      0.05 := by
    rw [trigger_plan_always, plan_big_eval]
    norm_num [max_def, trigAlways]
  have hvc := viewCands_single (aggregate [sHi] 3) 819202048 {} 1 trigAlways hb hsc
  have hcand : Cand.mk 1 (trigger_plan (aggregate [sHi] 3) 819202048 {} trigAlways)
      (trigAlways.priority *
        ((trigger_plan (aggregate [sHi] 3) 819202048 {} trigAlways).est_gain_us /
          max 1 (trigger_plan (aggregate [sHi] 3) 819202048 {} trigAlways).est_cost_us)) =
      Cand.mk 1 (RetilePlan.mk LayoutKind.AoSoA 128 (400001 / 2) 45000) (90000 / 400001) := by
    rw [trigger_plan_always, plan_big_eval]
    norm_num [max_def, trigAlways]
  have htail : collectViews aggOne bytesBig {} polAlways.triggers (List.range' 2 63) [] =
      Except.ok ([], []) :=
    collectViews_skipAll aggOne bytesBig {} polAlways.triggers (List.range' 2 63) [] aggOne_skip
  have hmain := collectViews_cons_active aggOne bytesBig {} polAlways.triggers 1
    (List.range' 2 63) [] _ ([], [])
    (by rw [show aggOne 1 = aggregate [sHi] 3 from if_pos rfl, aggHi_eval]; norm_num)
    (by norm_num [aget])
    (by rw [show aggOne 1 = aggregate [sHi] 3 from if_pos rfl,
          show bytesBig 1 = 819202048 from if_pos rfl,
          show polAlways.triggers = [trigAlways] from rfl]
        exact hvc)
    htail
  rw [show List.range' 1 64 = 1 :: List.range' 2 63 from by decide, hmain, hcand]
  rfl

/-- Candidate collection of the budget-gating scenario: two candidates with
cost 150000 each; view 1 scores 0.3, view 2 scores 0.1. -/
theorem collect_two :
    collectViews aggTwo bytesTwo {} polAlways.triggers (List.range' 1 64) [] =
      Except.ok ([],
        [Cand.mk 1 (RetilePlan.mk LayoutKind.AoSoA 128 150000 45000) (3 / 10),
         Cand.mk 2 (RetilePlan.mk LayoutKind.AoSoA 128 150000 15000) (1 / 10)]) := by
  have hb1 : eval_pred trigAlways.when.toList (aggregate [sHi] 3) = Except.ok true := by
    rw [show trigAlways.when = "mean_us >= 0" from rfl]
    apply eval_pred_mean_ge_zero
    rw [aggHi_eval]
    norm_num
  have hb2 : eval_pred trigAlways.when.toList (aggregate [sLo] 3) = Except.ok true := by
    rw [show trigAlways.when = "mean_us >= 0" from rfl]
    apply eval_pred_mean_ge_zero
    rw [aggLo_eval]
    norm_num
  have hsc1 : trigAlways.priority *
      ((trigger_plan (aggregate [sHi] 3) 614400000 {} trigAlways).est_gain_us /
        max 1 (trigger_plan (aggregate [sHi] 3) 614400000 {} trigAlways).est_cost_us) >
      0.05 := by
    rw [trigger_plan_always, plan_two_eval.1]
    norm_num [max_def, trigAlways]
  have hsc2 : trigAlways.priority *
      ((trigger_plan (aggregate [sLo] 3) 614400000 {} trigAlways).est_gain_us /
        max 1 (trigger_plan (aggregate [sLo] 3) 614400000 {} trigAlways).est_cost_us) >
      0.05 := by
    rw [trigger_plan_always, plan_two_eval.2]
    norm_num [max_def, trigAlways]
  have hcand1 : Cand.mk 1 (trigger_plan (aggregate [sHi] 3) 614400000 {} trigAlways)
      (trigAlways.priority *
        ((trigger_plan (aggregate [sHi] 3) 614400000 {} trigAlways).est_gain_us /
          max 1 (trigger_plan (aggregate [sHi] 3) 614400000 {} trigAlways).est_cost_us)) =
      Cand.mk 1 (RetilePlan.mk LayoutKind.AoSoA 128 150000 45000) (3 / 10) := by
    rw [trigger_plan_always, plan_two_eval.1]
    norm_num [max_def, trigAlways]
  have hcand2 : Cand.mk 2 (trigger_plan (aggregate [sLo] 3) 614400000 {} trigAlways)
      (trigAlways.priority *
        ((trigger_plan (aggregate [sLo] 3) 614400000 {} trigAlways).est_gain_us /
          max 1 (trigger_plan (aggregate [sLo] 3) 614400000 {} trigAlways).est_cost_us)) =
      Cand.mk 2 (RetilePlan.mk LayoutKind.AoSoA 128 150000 15000) (1 / 10) := by
    rw [trigger_plan_always, plan_two_eval.2]
    norm_num [max_def, trigAlways]
  have htail : collectViews aggTwo bytesTwo {} polAlways.triggers (List.range' 3 62) [] =
      Except.ok ([], []) :=
    collectViews_skipAll aggTwo bytesTwo {} polAlways.triggers (List.range' 3 62) [] aggTwo_skip
  have h2 := collectViews_cons_active aggTwo bytesTwo {} polAlways.triggers 2
    (List.range' 3 62) [] _ ([], [])
    (by rw [show aggTwo 2 = aggregate [sLo] 3 from rfl, aggLo_eval]; norm_num)
    (by norm_num [aget])
    (by rw [show aggTwo 2 = aggregate [sLo] 3 from rfl,
          show bytesTwo 2 = 614400000 from rfl,
          show polAlways.triggers = [trigAlways] from rfl]
        exact viewCands_single (aggregate [sLo] 3) 614400000 {} 2 trigAlways hb2 hsc2)
    htail
  have h1 := collectViews_cons_active aggTwo bytesTwo {} polAlways.triggers 1
    (2 :: List.range' 3 62) [] _ _
    (by rw [show aggTwo 1 = aggregate [sHi] 3 from rfl, aggHi_eval]; norm_num)
    (by norm_num [aget])
    (by rw [show aggTwo 1 = aggregate [sHi] 3 from rfl,
          show bytesTwo 1 = 614400000 from rfl,
          show polAlways.triggers = [trigAlways] from rfl]
        exact viewCands_single (aggregate [sHi] 3) 614400000 {} 1 trigAlways hb1 hsc1)
    h2
  rw [show List.range' 1 64 = 1 :: 2 :: List.range' 3 62 from by decide, h1, hcand1, hcand2]
  rfl

/-- Truncation of the fractional cost 200000.5 to the C++ `int` 200000. -/
theorem cppTrunc_big : cppTrunc ((400001 : ℚ) / 2) = 200000 := by
  unfold cppTrunc
  rw [if_pos (by norm_num : (0 : ℚ) ≤ 400001 / 2), Int.floor_eq_iff]
  constructor <;> norm_num

/-- Truncation of the integral cost 150000. -/
theorem cppTrunc_150000 : cppTrunc ((150000 : ℚ)) = 150000 := by
  unfold cppTrunc
  rw [if_pos (by norm_num : (0 : ℚ) ≤ 150000), Int.floor_eq_iff]
  constructor <;> norm_num

/-- C5 counterexample. With one candidate of estimated cost exactly
`200000.5` µs (819202048 bytes at 4096 bytes/µs), the `(int)` truncation in
the admission test accepts it (`0 + 200000 ≤ 200000`), so the frame applies
a retile whose `est_cost_us` total, 200000.5, EXCEEDS the 200000 µs
budget. -/
theorem budget_overshoot_counterexample :
    (scheduler_on_end_frame aggOne bytesBig { policy := polAlways }).map
        (fun r => r.2.map fun c => c.plan.est_cost_us) = Except.ok [400001 / 2] ∧
    ¬ ((400001 : ℚ) / 2 ≤ 200000) := by
  constructor
  · unfold scheduler_on_end_frame
    dsimp only
    rw [collect_big, except_bind_ok]
    dsimp only
    rw [List.mergeSort_singleton]
    have hadm : admitFilter
        [Cand.mk 1 (RetilePlan.mk LayoutKind.AoSoA 128 (400001 / 2) 45000) (90000 / 400001)]
        0 =
        [Cand.mk 1 (RetilePlan.mk LayoutKind.AoSoA 128 (400001 / 2) 45000) (90000 / 400001)] := by
      unfold admitFilter
      rw [if_pos (by rw [show (Cand.mk 1
        (RetilePlan.mk LayoutKind.AoSoA 128 (400001 / 2) 45000)
        (90000 / 400001)).plan.est_cost_us = (400001 : ℚ) / 2 from rfl, cppTrunc_big]; decide)]
      rfl
    rw [hadm]
    rfl
  · norm_num

/-- C5 (amended). In every end-of-frame evaluation the candidates are
admitted in descending score order exactly when
`used + (int)est_cost_us ≤ 200000`, where `(int)` truncates toward zero and
`used` accumulates the truncated costs of previously admitted candidates —
so the TRUNCATED costs of the applied retiles never total more than
200000 µs (the true `est_cost_us` total can exceed the budget by the sum of
the discarded fractional parts); in particular, of two candidate plans each
with `est_cost_us = 150000`, only the higher-scoring one is applied. -/
theorem budget_admission_spec :
    (∀ (agg : Nat → FrameAgg) (bytes : Nat → Nat) (st : SchedState)
      (r : SchedState × List Cand),
      scheduler_on_end_frame agg bytes st = Except.ok r →
      (r.2.map fun c => cppTrunc c.plan.est_cost_us).sum ≤ 200000) ∧
    (scheduler_on_end_frame aggTwo bytesTwo { policy := polAlways }).map
        (fun r => r.2.map fun c => (c.v, c.plan.est_cost_us)) =
      Except.ok [(1, (150000 : ℚ))] := by
  constructor
  · intro agg bytes st r h
    unfold scheduler_on_end_frame at h
    cases hc : collectViews agg bytes st.learn st.policy.triggers (List.range' 1 64)
        st.cooldown with
    | error e =>
      rw [hc, except_bind_error] at h
      exact Except.noConfusion h
    | ok cdCands =>
      rw [hc, except_bind_ok] at h
      have hinj := Except.ok.inj h
      rw [← hinj]
      dsimp only
      have hb := admitFilter_budget (cdCands.2.mergeSort candLE) 0 (by norm_num)
      omega
  · unfold scheduler_on_end_frame
    dsimp only
    rw [collect_two, except_bind_ok]
    dsimp only
    rw [mergeSort_pair, if_pos (by
      unfold candLE
      exact decide_eq_true (Or.inl (by norm_num)))]
    have hadm : admitFilter
        [Cand.mk 1 (RetilePlan.mk LayoutKind.AoSoA 128 150000 45000) (3 / 10),
         Cand.mk 2 (RetilePlan.mk LayoutKind.AoSoA 128 150000 15000) (1 / 10)] 0 =
        [Cand.mk 1 (RetilePlan.mk LayoutKind.AoSoA 128 150000 45000) (3 / 10)] := by
      simp only [admitFilter]
      rw [cppTrunc_150000]
      rw [if_pos (show ((0 : Int) + 150000 ≤ 200000) from by decide)]
      rw [if_neg (show ¬ ((0 : Int) + 150000 + 150000 ≤ 200000) from by decide)]
    rw [hadm]
    rfl

/-- Witness for C5's universally quantified budget bound at a concrete
frame: the all-idle evaluation applies nothing, total truncated cost 0. -/
theorem budget_admission_spec_witness :
    ((([] : List Cand)).map fun c => cppTrunc c.plan.est_cost_us).sum ≤ 200000 :=
  budget_admission_spec.1 (fun _ => {}) (fun _ => 0) {} ({}, []) end_frame_idle

/-- Reading back the key just written. -/
theorem aget_aset_self {α : Type} (m : List (Nat × α)) (k : Nat) (x d : α) :
    aget (aset m k x) k d = x := by
  induction m with
  | nil => simp [aget, aset, List.lookup]
  | cons p t ih =>
    obtain ⟨a, b⟩ := p
    by_cases hp : a = k
    · subst hp
      simp [aget, aset, List.lookup]
    · simp only [aset]
      rw [if_neg hp]
      have hb : (k == a) = false := beq_eq_false_iff_ne.mpr (Ne.symm hp)
      simp only [aget, List.lookup, hb] at ih ⊢
      exact ih

/-- Writing one key leaves every other key's value unchanged. -/
theorem aget_aset_ne {α : Type} (m : List (Nat × α)) (k j : Nat) (x d : α)
    (h : j ≠ k) : aget (aset m k x) j d = aget m j d := by
  induction m with
  | nil =>
    have hb : (j == k) = false := beq_eq_false_iff_ne.mpr h
    simp [aget, aset, List.lookup, hb]
  | cons p t ih =>
    obtain ⟨a, b⟩ := p
    by_cases hp : a = k
    · subst hp
      have hb : (j == a) = false := beq_eq_false_iff_ne.mpr h
      simp [aget, aset, List.lookup, hb]
    · simp only [aset]
      rw [if_neg hp]
      by_cases hj : j = a
      · subst hj
        simp [aget, List.lookup]
      · have hb : (j == a) = false := beq_eq_false_iff_ne.mpr hj
        simp only [aget, List.lookup, hb] at ih ⊢
        exact ih

/-- The deferred-learning step never touches the cool-off map. -/
theorem learnStep_cooldown (agg : Nat → FrameAgg) (st : SchedState) (entry : Nat × Int) :
    (learnStep agg st entry).cooldown = st.cooldown := by
  unfold learnStep
  split
  · rfl
  · split
    · rfl
    · dsimp only
      repeat' split
      all_goals rfl

/-- Folding the learning loop never touches the cool-off map. -/
theorem foldl_learnStep_cooldown (agg : Nat → FrameAgg) (l : List (Nat × Int))
    (st : SchedState) : (l.foldl (learnStep agg) st).cooldown = st.cooldown := by
  induction l generalizing st with
  | nil => rfl
  | cons e l ih => rw [List.foldl_cons, ih, learnStep_cooldown]

/-- Applying a candidate for another view keeps this view's cool-off value. -/
theorem applyCand_cooldown_ne (agg : Nat → FrameAgg) (st : SchedState) (c : Cand)
    (v : Nat) (h : c.v ≠ v) :
    aget (applyCand agg st c).cooldown v 0 = aget st.cooldown v 0 := by
  show aget (aset st.cooldown c.v st.policy.cooloff_frames) v 0 = aget st.cooldown v 0
  exact aget_aset_ne _ _ _ _ _ (Ne.symm h)

/-- Applying a batch of candidates, none for this view, keeps this view's
cool-off value. -/
theorem foldl_applyCand_cooldown (agg : Nat → FrameAgg) (l : List Cand)
    (st : SchedState) (v : Nat) (h : ∀ c ∈ l, c.v ≠ v) :
    aget (l.foldl (applyCand agg) st).cooldown v 0 = aget st.cooldown v 0 := by
  induction l generalizing st with
  | nil => rfl
  | cons c l ih =>
    rw [List.foldl_cons, ih _ (fun d hd => h d (List.mem_cons_of_mem _ hd)),
      applyCand_cooldown_ne agg st c v (h c (List.mem_cons_self _ _))]

/-- The view loop never writes a cool-off key outside its view list. -/
theorem collectViews_untouched (agg : Nat → FrameAgg) (bytes : Nat → Nat)
    (L : LearnState) (trg : List PolicyTrigger) (vs : List Nat)
    (cd : List (Nat × Int)) (res : List (Nat × Int) × List Cand) (v : Nat)
    (hv : v ∉ vs) (h : collectViews agg bytes L trg vs cd = Except.ok res) :
    aget res.1 v 0 = aget cd v 0 := by
  induction vs generalizing cd res with
  | nil =>
    cases h
    rfl
  | cons w vs ih =>
    have hwv : w ≠ v := fun he => hv (he ▸ List.mem_cons_self _ _)
    have hv' : v ∉ vs := fun hm => hv (List.mem_cons_of_mem _ hm)
    unfold collectViews at h
    by_cases h1 : (agg w).mean_us = 0 ∧ (agg w).p95_us = 0
    · rw [if_pos h1] at h
      exact ih cd res hv' h
    · rw [if_neg h1] at h
      by_cases h2 : aget cd w 0 > 0
      · rw [if_pos h2] at h
        rw [ih _ res hv' h, aget_aset_ne _ _ _ _ _ (Ne.symm hwv)]
      · rw [if_neg h2] at h
        cases hcs : viewCands (agg w) (bytes w) L w trg with
        | error e =>
          rw [hcs, except_bind_error] at h
          exact Except.noConfusion h
        | ok cs =>
          rw [hcs, except_bind_ok] at h
          cases hrest : collectViews agg bytes L trg vs cd with
          | error e =>
            rw [hrest, except_bind_error] at h
            exact Except.noConfusion h
          | ok cdRest =>
            rw [hrest, except_bind_ok] at h
            have hinj := Except.ok.inj h
            rw [← hinj]
            exact ih cd cdRest hv' hrest

/-- A view on cool-off when the view loop starts yields no candidate, and
its counter drops by at most one (provided the view list has no
duplicates). -/
theorem collectViews_cooldown_pos (agg : Nat → FrameAgg) (bytes : Nat → Nat)
    (L : LearnState) (trg : List PolicyTrigger) (vs : List Nat)
    (cd : List (Nat × Int)) (res : List (Nat × Int) × List Cand) (v : Nat)
    (hnd : vs.Nodup) (hpos : aget cd v 0 > 0)
    (h : collectViews agg bytes L trg vs cd = Except.ok res) :
    (∀ c ∈ res.2, c.v ≠ v) ∧ aget res.1 v 0 ≥ aget cd v 0 - 1 := by
  induction vs generalizing cd res with
  | nil =>
    cases h
    refine ⟨fun c hc => absurd hc (List.not_mem_nil c), ?_⟩
    show aget cd v 0 ≥ aget cd v 0 - 1
    omega
  | cons w vs ih =>
    rw [List.nodup_cons] at hnd
    obtain ⟨hw, hnd'⟩ := hnd
    unfold collectViews at h
    by_cases h1 : (agg w).mean_us = 0 ∧ (agg w).p95_us = 0
    · rw [if_pos h1] at h
      exact ih cd res hnd' hpos h
    · rw [if_neg h1] at h
      by_cases h2 : aget cd w 0 > 0
      · rw [if_pos h2] at h
        by_cases hwv : w = v
        · subst hwv
          constructor
          · intro c hc
            have hm := (collectViews_sound agg bytes L trg vs _ res h c hc).1
            exact fun he => hw (he ▸ hm)
          · have hu := collectViews_untouched agg bytes L trg vs _ res w hw h
            rw [hu, aget_aset_self]
        · have hvw : v ≠ w := fun he => hwv he.symm
          have hpos' : aget (aset cd w (aget cd w 0 - 1)) v 0 > 0 := by
            rw [aget_aset_ne _ _ _ _ _ hvw]
            exact hpos
          obtain ⟨hc, hcd⟩ := ih _ res hnd' hpos' h
          refine ⟨hc, ?_⟩
          rw [aget_aset_ne _ _ _ _ _ hvw] at hcd
          exact hcd
      · rw [if_neg h2] at h
        have hwv : w ≠ v := fun he => h2 (he ▸ hpos)
        cases hcs : viewCands (agg w) (bytes w) L w trg with
        | error e =>
          rw [hcs, except_bind_error] at h
          exact Except.noConfusion h
        | ok cs =>
          rw [hcs, except_bind_ok] at h
          cases hrest : collectViews agg bytes L trg vs cd with
          | error e =>
            rw [hrest, except_bind_error] at h
            exact Except.noConfusion h
          | ok cdRest =>
            rw [hrest, except_bind_ok] at h
            have hinj := Except.ok.inj h
            obtain ⟨hc, hcd⟩ := ih cd cdRest hnd' hpos hrest
            rw [← hinj]
            constructor
            · intro c hcmem
              have hcmem' : c ∈ cs ++ cdRest.2 := hcmem
              rcases List.mem_append.mp hcmem' with hm | hm
              · have hcv := (viewCands_sound _ _ _ _ _ _ hcs c hm).1
                exact fun he => hwv (hcv.symm.trans he)
              · exact hc c hm
            · show aget cdRest.1 v 0 ≥ aget cd v 0 - 1
              exact hcd

/-- An end-of-frame evaluation at a state where view `v` is on cool-off
applies no retile to `v`, and `v`'s counter drops by at most one. -/
theorem end_frame_cooldown_pos (agg : Nat → FrameAgg) (bytes : Nat → Nat)
    (st : SchedState) (r : SchedState × List Cand) (v : Nat)
    (hpos : aget st.cooldown v 0 > 0)
    (h : scheduler_on_end_frame agg bytes st = Except.ok r) :
    (∀ c ∈ r.2, c.v ≠ v) ∧ aget r.1.cooldown v 0 ≥ aget st.cooldown v 0 - 1 := by
  unfold scheduler_on_end_frame at h
  cases hc : collectViews agg bytes st.learn st.policy.triggers (List.range' 1 64)
      st.cooldown with
  | error e =>
    rw [hc, except_bind_error] at h
    exact Except.noConfusion h
  | ok cdCands =>
    rw [hc, except_bind_ok] at h
    have hinj := Except.ok.inj h
    obtain ⟨hnc, hcd⟩ := collectViews_cooldown_pos agg bytes st.learn st.policy.triggers
      (List.range' 1 64) st.cooldown cdCands v (List.nodup_range' 1 64) hpos hc
    have hadm : ∀ c ∈ admitFilter (cdCands.2.mergeSort candLE) 0, c.v ≠ v := fun c hcm =>
      hnc c (List.mem_mergeSort.mp (admitFilter_mem _ _ _ hcm))
    rw [← hinj]
    refine ⟨hadm, ?_⟩
    show aget (List.foldl (learnStep agg) _ _).cooldown v 0 ≥ aget st.cooldown v 0 - 1
    rw [foldl_learnStep_cooldown,
      foldl_applyCand_cooldown agg (admitFilter (cdCands.2.mergeSort candLE) 0)
        ({ st with cooldown := cdCands.1 } : SchedState) v hadm]
    show aget cdCands.1 v 0 ≥ aget st.cooldown v 0 - 1
    exact hcd

/-- While a view's cool-off counter covers the remaining frames, no frame
of the run applies a retile to that view. -/
theorem cooloff_k_frames (envs : List FrameEnv) (st : SchedState) (v : Nat)
    (r : SchedState × List (List Cand))
    (hk : (envs.length : Int) ≤ aget st.cooldown v 0)
    (h : runFrames envs st = Except.ok r) :
    ∀ frame ∈ r.2, ∀ c ∈ frame, c.v ≠ v := by
  induction envs generalizing st r with
  | nil =>
    cases h
    intro frame hf
    exact absurd hf (List.not_mem_nil frame)
  | cons e es ih =>
    unfold runFrames at h
    cases h1 : scheduler_on_end_frame e.agg e.bytes
        { st with policy := e.policy, frame_idx := st.frame_idx + 1 } with
    | error err =>
      rw [h1, except_bind_error] at h
      exact Except.noConfusion h
    | ok r1 =>
      rw [h1, except_bind_ok] at h
      cases h2 : runFrames es r1.1 with
      | error err =>
        rw [h2, except_bind_error] at h
        exact Except.noConfusion h
      | ok r2 =>
        rw [h2, except_bind_ok] at h
        have hinj := Except.ok.inj h
        have hk' : (es.length : Int) + 1 ≤ aget st.cooldown v 0 := by
          rw [List.length_cons] at hk
          push_cast at hk
          omega
        have hpos : aget ({ st with policy := e.policy, frame_idx := st.frame_idx + 1 } : SchedState).cooldown v 0 > 0 := by
          show aget st.cooldown v 0 > 0
          omega
        obtain ⟨hfirst, hcd⟩ := end_frame_cooldown_pos e.agg e.bytes _ r1 v hpos h1
        have hk2 : (es.length : Int) ≤ aget r1.1.cooldown v 0 := by
          have hrw : aget ({ st with policy := e.policy, frame_idx := st.frame_idx + 1 } : SchedState).cooldown v 0 = aget st.cooldown v 0 := rfl
          rw [hrw] at hcd
          omega
        rw [← hinj]
        intro frame hf
        have hf' : frame ∈ r1.2 :: r2.2 := hf
        rcases List.mem_cons.mp hf' with rfl | hm
        · exact hfirst
        · exact ih r1.1 r2 hk2 h2 frame hm

/-- One step of the frame driver, split into the end-of-frame evaluation of
the head frame and the run of the tail. -/
theorem runFrames_cons (e : FrameEnv) (es : List FrameEnv) (st st1 stF : SchedState)
    (applied : List Cand) (frames : List (List Cand))
    (h1 : scheduler_on_end_frame e.agg e.bytes
      { st with policy := e.policy, frame_idx := st.frame_idx + 1 } =
        Except.ok (st1, applied))
    (h2 : runFrames es st1 = Except.ok (stF, frames)) :
    runFrames (e :: es) st = Except.ok (stF, applied :: frames) := by
  unfold runFrames
  rw [h1, except_bind_ok]
  dsimp only
  rw [h2, except_bind_ok]
  rfl

/-- A learning entry acted on less than two frames ago is skipped. -/
theorem learnStep_recent (agg : Nat → FrameAgg) (st : SchedState) (entry : Nat × Int)
    (h : st.frame_idx - entry.2 < 2) : learnStep agg st entry = st := by
  unfold learnStep
  rw [if_pos h]

/-- A learning entry whose pre-action baseline is gone is skipped. -/
theorem learnStep_nobase (agg : Nat → FrameAgg) (st : SchedState) (entry : Nat × Int)
    (hfi : ¬ st.frame_idx - entry.2 < 2)
    (h : st.pre_baseline.lookup entry.1 = none) : learnStep agg st entry = st := by
  unfold learnStep
  rw [if_neg hfi, h]

/-- Views other than 1 are idle in every frame of the cool-off scenario. -/
theorem scenAgg_skip (n : Nat) :
    ∀ v ∈ List.range' 2 63, ((scenarioEnv n).agg v).mean_us = 0 ∧
      ((scenarioEnv n).agg v).p95_us = 0 := by
  intro v hv
  have h2 := (List.mem_range'_1.mp hv).1
  have hne : v ≠ 1 := by omega
  rw [show (scenarioEnv n).agg v = aggregate [] 3 from by
    show (if v = 1 then aggregate (List.replicate n sample1000) 3 else aggregate [] 3) =
      aggregate [] 3
    rw [if_neg hne]]
  exact ⟨rfl, rfl⟩

/-- View 1 is busy (its mean is 1000, not 0) in every scenario frame. -/
theorem scenAgg_busy (n : Nat)
    (hmean : (aggregate (List.replicate n sample1000) 3).mean_us = 1000) :
    ¬ (((scenarioEnv n).agg 1).mean_us = 0 ∧ ((scenarioEnv n).agg 1).p95_us = 0) := by
  rw [show (scenarioEnv n).agg 1 = aggregate (List.replicate n sample1000) 3 from rfl]
  intro hcontra
  rw [hmean] at hcontra
  norm_num at hcontra

/-- Aggregate of the scenario window after one sample. -/
theorem aggScen1 :
    aggregate (List.replicate 1 sample1000) 3 =
      { mean_us := 1000, warp_eff := 2, mem_coalesce := 2 } := by
  norm_num [aggregate, sample1000, List.replicate]

/-- Aggregate of the scenario window after two samples. -/
theorem aggScen2 :
    aggregate (List.replicate 2 sample1000) 3 =
      { mean_us := 1000, warp_eff := 3 / 2, mem_coalesce := 3 / 2 } := by
  norm_num [aggregate, sample1000, List.replicate]

/-- Aggregate of the scenario window once three samples fill it. -/
theorem aggScen_ge3 (n : Nat) (h : 3 ≤ n) :
    aggregate (List.replicate n sample1000) 3 =
      { mean_us := 1000, warp_eff := 4 / 3, mem_coalesce := 4 / 3 } := by
  have hs : (List.replicate n sample1000).reverse.take 3 = List.replicate 3 sample1000 := by
    rw [List.reverse_replicate, List.take_replicate, Nat.min_eq_left h]
  simp only [aggregate]
  rw [hs]
  norm_num [sample1000, List.replicate]

/-- The scenario plan on the first frame: cost 0, floor gain 30. -/
theorem planScen1 :
    plan_aosoa 0 (aggregate (List.replicate 1 sample1000) 3) {} 128 =
      RetilePlan.mk LayoutKind.AoSoA 128 0 30 := by
  rw [aggScen1]
  norm_num [plan_aosoa, max_def, min_def]

/-- The scenario plan once the window is full: cost 0, floor gain 30. -/
theorem planScen_ge3 (n : Nat) (h : 3 ≤ n) :
    plan_aosoa 0 (aggregate (List.replicate n sample1000) 3) {} 128 =
      RetilePlan.mk LayoutKind.AoSoA 128 0 30 := by
  rw [aggScen_ge3 n h]
  norm_num [plan_aosoa, max_def, min_def]

/-- The `(int)` cast of a zero cost. -/
theorem cppTrunc_zero : cppTrunc 0 = 0 := by
  unfold cppTrunc
  rw [if_pos (le_refl (0 : ℚ))]
  exact Int.floor_zero

/-- The zero-cost scenario candidate always fits the budget. -/
theorem admit_cand30 : admitFilter [cand30] 0 = [cand30] := by
  unfold admitFilter
  rw [if_pos (by rw [show cand30.plan.est_cost_us = (0 : ℚ) from rfl, cppTrunc_zero]; decide)]
  rfl

/-- Candidate collection on a scenario frame where view 1 is off cool-off:
exactly the zero-cost candidate, cool-off map unchanged. -/
theorem collect_scen (n : Nat) (cd0 : List (Nat × Int))
    (hmean : (aggregate (List.replicate n sample1000) 3).mean_us = 1000)
    (hplan : plan_aosoa 0 (aggregate (List.replicate n sample1000) 3) {} 128 =
      RetilePlan.mk LayoutKind.AoSoA 128 0 30)
    (hcd : ¬ aget cd0 1 0 > 0) :
    collectViews (scenarioEnv n).agg (scenarioEnv n).bytes {} scenarioPolicy.triggers
      (List.range' 1 64) cd0 = Except.ok (cd0, [cand30]) := by
  have hb : eval_pred trigAlways.when.toList (aggregate (List.replicate n sample1000) 3) =
      Except.ok true := by
    rw [show trigAlways.when = "mean_us >= 0" from rfl]
    apply eval_pred_mean_ge_zero
    rw [hmean]
    norm_num
  have hsc : trigAlways.priority *
      ((trigger_plan (aggregate (List.replicate n sample1000) 3) 0 {} trigAlways).est_gain_us /
        max 1 (trigger_plan (aggregate (List.replicate n sample1000) 3) 0 {}
          trigAlways).est_cost_us) > 0.05 := by
    rw [trigger_plan_always, hplan]
    norm_num [max_def, trigAlways]
  have hvc := viewCands_single (aggregate (List.replicate n sample1000) 3) 0 {} 1 trigAlways
    hb hsc
  have hcand : Cand.mk 1
      (trigger_plan (aggregate (List.replicate n sample1000) 3) 0 {} trigAlways)
      (trigAlways.priority *
        ((trigger_plan (aggregate (List.replicate n sample1000) 3) 0 {} trigAlways).est_gain_us /
          max 1 (trigger_plan (aggregate (List.replicate n sample1000) 3) 0 {}
            trigAlways).est_cost_us)) = cand30 := by
    rw [trigger_plan_always, hplan]
    norm_num [cand30, max_def, trigAlways]
  have htail : collectViews (scenarioEnv n).agg (scenarioEnv n).bytes {}
      scenarioPolicy.triggers (List.range' 2 63) cd0 = Except.ok (cd0, []) :=
    collectViews_skipAll _ _ _ _ _ _ (scenAgg_skip n)
  have hmain := collectViews_cons_active (scenarioEnv n).agg (scenarioEnv n).bytes {}
    scenarioPolicy.triggers 1 (List.range' 2 63) cd0 _ (cd0, [])
    (scenAgg_busy n hmean) hcd
    (by rw [show (scenarioEnv n).agg 1 = aggregate (List.replicate n sample1000) 3 from rfl,
          show (scenarioEnv n).bytes 1 = 0 from rfl,
          show scenarioPolicy.triggers = [trigAlways] from rfl]
        exact hvc)
    htail
  rw [show List.range' 1 64 = 1 :: List.range' 2 63 from by decide, hmain, hcand]
  rfl

/-- Candidate collection on a scenario frame where view 1 is on cool-off:
no candidate, counter decremented. -/
theorem collect_scen_cd (n : Nat) (cd0 : List (Nat × Int))
    (hmean : (aggregate (List.replicate n sample1000) 3).mean_us = 1000)
    (hcd : aget cd0 1 0 > 0) :
    collectViews (scenarioEnv n).agg (scenarioEnv n).bytes {} scenarioPolicy.triggers
      (List.range' 1 64) cd0 = Except.ok (aset cd0 1 (aget cd0 1 0 - 1), []) := by
  rw [show List.range' 1 64 = 1 :: List.range' 2 63 from by decide]
  rw [collectViews_cons_cooldown (scenarioEnv n).agg (scenarioEnv n).bytes {}
    scenarioPolicy.triggers 1 (List.range' 2 63) cd0 (scenAgg_busy n hmean) hcd]
  exact collectViews_skipAll _ _ _ _ _ _ (scenAgg_skip n)

/-- The deferred-learning step on the scenario's zero-error realization:
the clamped gradient update leaves the default coefficients unchanged, and
only the baseline entry is erased. -/
theorem learnStep_fire_noop (agg : Nat → FrameAgg) (st : SchedState) (t : Int)
    (hfi : ¬ st.frame_idx - t < 2)
    (hbase : st.pre_baseline.lookup 1 = some 1000)
    (hlearn : st.learn = {})
    (hagg : agg 1 = { mean_us := 1000, warp_eff := 4 / 3, mem_coalesce := 4 / 3 }) :
    learnStep agg st (1, t) = { st with pre_baseline := aerase st.pre_baseline 1 } := by
  unfold learnStep
  dsimp only
  rw [if_neg hfi, hbase]
  dsimp only
  rw [hagg, hlearn]
  norm_num [max_def, min_def]

/-- Frame 1 of the cool-off scenario: view 1 is off cool-off, so the
zero-cost candidate is applied, the counter is set to 3 and the baseline
and action frame are recorded. -/
theorem scen_f1 :
    scheduler_on_end_frame (scenarioEnv 1).agg (scenarioEnv 1).bytes
      ({ policy := scenarioPolicy, frame_idx := 1, cooldown := [], pre_baseline := [], action_frame := [] } : SchedState) =
      Except.ok (({ policy := scenarioPolicy, frame_idx := 1, cooldown := [(1, 3)], pre_baseline := [(1, 1000)], action_frame := [(1, 1)] } : SchedState), [cand30]) := by
  have hmean : (aggregate (List.replicate 1 sample1000) 3).mean_us = 1000 := by
    rw [aggScen1]
  have happ : applyCand (scenarioEnv 1).agg ({ policy := scenarioPolicy, frame_idx := 1, cooldown := [], pre_baseline := [], action_frame := [] } : SchedState) cand30 = ({ policy := scenarioPolicy, frame_idx := 1, cooldown := [(1, 3)], pre_baseline := [(1, 1000)], action_frame := [(1, 1)] } : SchedState) := by
    simp only [applyCand]
    rw [show (scenarioEnv 1).agg cand30.v = aggregate (List.replicate 1 sample1000) 3 from rfl, aggScen1]
    norm_num [cand30, aset, scenarioPolicy]
  unfold scheduler_on_end_frame
  dsimp only
  rw [collect_scen 1 ([] : List (Nat × Int)) hmean (planScen1) (by decide), except_bind_ok]
  dsimp only
  rw [List.mergeSort_singleton, admit_cand30]
  simp only [List.foldl]
  rw [happ]
  rfl

/-- Frame 2 of the cool-off scenario: view 1 is on cool-off, so no
retile is applied and the counter drops by one. -/
theorem scen_f2 :
    scheduler_on_end_frame (scenarioEnv 2).agg (scenarioEnv 2).bytes
      ({ policy := scenarioPolicy, frame_idx := 2, cooldown := [(1, 3)], pre_baseline := [(1, 1000)], action_frame := [(1, 1)] } : SchedState) =
      Except.ok (({ policy := scenarioPolicy, frame_idx := 2, cooldown := [(1, 2)], pre_baseline := [(1, 1000)], action_frame := [(1, 1)] } : SchedState), []) := by
  have hmean : (aggregate (List.replicate 2 sample1000) 3).mean_us = 1000 := by
    rw [aggScen2]
  have hlearn : learnStep (scenarioEnv 2).agg ({ policy := scenarioPolicy, frame_idx := 2, cooldown := [(1, 2)], pre_baseline := [(1, 1000)], action_frame := [(1, 1)] } : SchedState) (1, 1) = ({ policy := scenarioPolicy, frame_idx := 2, cooldown := [(1, 2)], pre_baseline := [(1, 1000)], action_frame := [(1, 1)] } : SchedState) :=
    learnStep_recent _ _ _ (by decide)
  unfold scheduler_on_end_frame
  dsimp only
  rw [collect_scen_cd 2 ([(1, 3)] : List (Nat × Int)) hmean (by decide), except_bind_ok]
  rw [show aset ([(1, 3)] : List (Nat × Int)) 1 (aget ([(1, 3)] : List (Nat × Int)) 1 0 - 1) = ([(1, 2)] : List (Nat × Int)) from rfl]
  dsimp only
  rw [List.mergeSort_nil]
  rw [show admitFilter [] 0 = [] from rfl]
  simp only [List.foldl]
  rw [hlearn]
  rfl

/-- Frame 3 of the cool-off scenario: view 1 is on cool-off, so no
retile is applied and the counter drops by one. -/
theorem scen_f3 :
    scheduler_on_end_frame (scenarioEnv 3).agg (scenarioEnv 3).bytes
      ({ policy := scenarioPolicy, frame_idx := 3, cooldown := [(1, 2)], pre_baseline := [(1, 1000)], action_frame := [(1, 1)] } : SchedState) =
      Except.ok (({ policy := scenarioPolicy, frame_idx := 3, cooldown := [(1, 1)], pre_baseline := [], action_frame := [(1, 1)] } : SchedState), []) := by
  have hmean : (aggregate (List.replicate 3 sample1000) 3).mean_us = 1000 := by
    rw [aggScen_ge3 3 (by norm_num)]
  have hagg : (scenarioEnv 3).agg 1 =
      { mean_us := 1000, warp_eff := 4 / 3, mem_coalesce := 4 / 3 } := by
    rw [show (scenarioEnv 3).agg 1 = aggregate (List.replicate 3 sample1000) 3 from rfl,
      aggScen_ge3 3 (by norm_num)]
  have hlearn : learnStep (scenarioEnv 3).agg ({ policy := scenarioPolicy, frame_idx := 3, cooldown := [(1, 1)], pre_baseline := [(1, 1000)], action_frame := [(1, 1)] } : SchedState) (1, 1) = ({ policy := scenarioPolicy, frame_idx := 3, cooldown := [(1, 1)], pre_baseline := [], action_frame := [(1, 1)] } : SchedState) :=
    learnStep_fire_noop (scenarioEnv 3).agg _ 1 (by decide) rfl rfl hagg
  unfold scheduler_on_end_frame
  dsimp only
  rw [collect_scen_cd 3 ([(1, 2)] : List (Nat × Int)) hmean (by decide), except_bind_ok]
  rw [show aset ([(1, 2)] : List (Nat × Int)) 1 (aget ([(1, 2)] : List (Nat × Int)) 1 0 - 1) = ([(1, 1)] : List (Nat × Int)) from rfl]
  dsimp only
  rw [List.mergeSort_nil]
  rw [show admitFilter [] 0 = [] from rfl]
  simp only [List.foldl]
  rw [hlearn]
  rfl

/-- Frame 4 of the cool-off scenario: view 1 is on cool-off, so no
retile is applied and the counter drops by one. -/
theorem scen_f4 :
    scheduler_on_end_frame (scenarioEnv 4).agg (scenarioEnv 4).bytes
      ({ policy := scenarioPolicy, frame_idx := 4, cooldown := [(1, 1)], pre_baseline := [], action_frame := [(1, 1)] } : SchedState) =
      Except.ok (({ policy := scenarioPolicy, frame_idx := 4, cooldown := [(1, 0)], pre_baseline := [], action_frame := [(1, 1)] } : SchedState), []) := by
  have hmean : (aggregate (List.replicate 4 sample1000) 3).mean_us = 1000 := by
    rw [aggScen_ge3 4 (by norm_num)]
  have hlearn : learnStep (scenarioEnv 4).agg ({ policy := scenarioPolicy, frame_idx := 4, cooldown := [(1, 0)], pre_baseline := [], action_frame := [(1, 1)] } : SchedState) (1, 1) = ({ policy := scenarioPolicy, frame_idx := 4, cooldown := [(1, 0)], pre_baseline := [], action_frame := [(1, 1)] } : SchedState) :=
    learnStep_nobase _ _ _ (by decide) rfl
  unfold scheduler_on_end_frame
  dsimp only
  rw [collect_scen_cd 4 ([(1, 1)] : List (Nat × Int)) hmean (by decide), except_bind_ok]
  rw [show aset ([(1, 1)] : List (Nat × Int)) 1 (aget ([(1, 1)] : List (Nat × Int)) 1 0 - 1) = ([(1, 0)] : List (Nat × Int)) from rfl]
  dsimp only
  rw [List.mergeSort_nil]
  rw [show admitFilter [] 0 = [] from rfl]
  simp only [List.foldl]
  rw [hlearn]
  rfl

/-- Frame 5 of the cool-off scenario: view 1 is off cool-off, so the
zero-cost candidate is applied, the counter is set to 3 and the baseline
and action frame are recorded. -/
theorem scen_f5 :
    scheduler_on_end_frame (scenarioEnv 5).agg (scenarioEnv 5).bytes
      ({ policy := scenarioPolicy, frame_idx := 5, cooldown := [(1, 0)], pre_baseline := [], action_frame := [(1, 1)] } : SchedState) =
      Except.ok (({ policy := scenarioPolicy, frame_idx := 5, cooldown := [(1, 3)], pre_baseline := [(1, 1000)], action_frame := [(1, 5)] } : SchedState), [cand30]) := by
  have hmean : (aggregate (List.replicate 5 sample1000) 3).mean_us = 1000 := by
    rw [aggScen_ge3 5 (by norm_num)]
  have happ : applyCand (scenarioEnv 5).agg ({ policy := scenarioPolicy, frame_idx := 5, cooldown := [(1, 0)], pre_baseline := [], action_frame := [(1, 1)] } : SchedState) cand30 = ({ policy := scenarioPolicy, frame_idx := 5, cooldown := [(1, 3)], pre_baseline := [(1, 1000)], action_frame := [(1, 5)] } : SchedState) := by
    simp only [applyCand]
    rw [show (scenarioEnv 5).agg cand30.v = aggregate (List.replicate 5 sample1000) 3 from rfl, aggScen_ge3 5 (by norm_num)]
    norm_num [cand30, aset, scenarioPolicy]
  unfold scheduler_on_end_frame
  dsimp only
  rw [collect_scen 5 ([(1, 0)] : List (Nat × Int)) hmean (planScen_ge3 5 (by norm_num)) (by decide), except_bind_ok]
  dsimp only
  rw [List.mergeSort_singleton, admit_cand30]
  simp only [List.foldl]
  rw [happ]
  rfl

/-- Frame 6 of the cool-off scenario: view 1 is on cool-off, so no
retile is applied and the counter drops by one. -/
theorem scen_f6 :
    scheduler_on_end_frame (scenarioEnv 6).agg (scenarioEnv 6).bytes
      ({ policy := scenarioPolicy, frame_idx := 6, cooldown := [(1, 3)], pre_baseline := [(1, 1000)], action_frame := [(1, 5)] } : SchedState) =
      Except.ok (({ policy := scenarioPolicy, frame_idx := 6, cooldown := [(1, 2)], pre_baseline := [(1, 1000)], action_frame := [(1, 5)] } : SchedState), []) := by
  have hmean : (aggregate (List.replicate 6 sample1000) 3).mean_us = 1000 := by
    rw [aggScen_ge3 6 (by norm_num)]
  have hlearn : learnStep (scenarioEnv 6).agg ({ policy := scenarioPolicy, frame_idx := 6, cooldown := [(1, 2)], pre_baseline := [(1, 1000)], action_frame := [(1, 5)] } : SchedState) (1, 5) = ({ policy := scenarioPolicy, frame_idx := 6, cooldown := [(1, 2)], pre_baseline := [(1, 1000)], action_frame := [(1, 5)] } : SchedState) :=
    learnStep_recent _ _ _ (by decide)
  unfold scheduler_on_end_frame
  dsimp only
  rw [collect_scen_cd 6 ([(1, 3)] : List (Nat × Int)) hmean (by decide), except_bind_ok]
  rw [show aset ([(1, 3)] : List (Nat × Int)) 1 (aget ([(1, 3)] : List (Nat × Int)) 1 0 - 1) = ([(1, 2)] : List (Nat × Int)) from rfl]
  dsimp only
  rw [List.mergeSort_nil]
  rw [show admitFilter [] 0 = [] from rfl]
  simp only [List.foldl]
  rw [hlearn]
  rfl

/-- Frame 7 of the cool-off scenario: view 1 is on cool-off, so no
retile is applied and the counter drops by one. -/
theorem scen_f7 :
    scheduler_on_end_frame (scenarioEnv 7).agg (scenarioEnv 7).bytes
      ({ policy := scenarioPolicy, frame_idx := 7, cooldown := [(1, 2)], pre_baseline := [(1, 1000)], action_frame := [(1, 5)] } : SchedState) =
      Except.ok (({ policy := scenarioPolicy, frame_idx := 7, cooldown := [(1, 1)], pre_baseline := [], action_frame := [(1, 5)] } : SchedState), []) := by
  have hmean : (aggregate (List.replicate 7 sample1000) 3).mean_us = 1000 := by
    rw [aggScen_ge3 7 (by norm_num)]
  have hagg : (scenarioEnv 7).agg 1 =
      { mean_us := 1000, warp_eff := 4 / 3, mem_coalesce := 4 / 3 } := by
    rw [show (scenarioEnv 7).agg 1 = aggregate (List.replicate 7 sample1000) 3 from rfl,
      aggScen_ge3 7 (by norm_num)]
  have hlearn : learnStep (scenarioEnv 7).agg ({ policy := scenarioPolicy, frame_idx := 7, cooldown := [(1, 1)], pre_baseline := [(1, 1000)], action_frame := [(1, 5)] } : SchedState) (1, 5) = ({ policy := scenarioPolicy, frame_idx := 7, cooldown := [(1, 1)], pre_baseline := [], action_frame := [(1, 5)] } : SchedState) :=
    learnStep_fire_noop (scenarioEnv 7).agg _ 5 (by decide) rfl rfl hagg
  unfold scheduler_on_end_frame
  dsimp only
  rw [collect_scen_cd 7 ([(1, 2)] : List (Nat × Int)) hmean (by decide), except_bind_ok]
  rw [show aset ([(1, 2)] : List (Nat × Int)) 1 (aget ([(1, 2)] : List (Nat × Int)) 1 0 - 1) = ([(1, 1)] : List (Nat × Int)) from rfl]
  dsimp only
  rw [List.mergeSort_nil]
  rw [show admitFilter [] 0 = [] from rfl]
  simp only [List.foldl]
  rw [hlearn]
  rfl

/-- Frame 8 of the cool-off scenario: view 1 is on cool-off, so no
retile is applied and the counter drops by one. -/
theorem scen_f8 :
    scheduler_on_end_frame (scenarioEnv 8).agg (scenarioEnv 8).bytes
      ({ policy := scenarioPolicy, frame_idx := 8, cooldown := [(1, 1)], pre_baseline := [], action_frame := [(1, 5)] } : SchedState) =
      Except.ok (({ policy := scenarioPolicy, frame_idx := 8, cooldown := [(1, 0)], pre_baseline := [], action_frame := [(1, 5)] } : SchedState), []) := by
  have hmean : (aggregate (List.replicate 8 sample1000) 3).mean_us = 1000 := by
    rw [aggScen_ge3 8 (by norm_num)]
  have hlearn : learnStep (scenarioEnv 8).agg ({ policy := scenarioPolicy, frame_idx := 8, cooldown := [(1, 0)], pre_baseline := [], action_frame := [(1, 5)] } : SchedState) (1, 5) = ({ policy := scenarioPolicy, frame_idx := 8, cooldown := [(1, 0)], pre_baseline := [], action_frame := [(1, 5)] } : SchedState) :=
    learnStep_nobase _ _ _ (by decide) rfl
  unfold scheduler_on_end_frame
  dsimp only
  rw [collect_scen_cd 8 ([(1, 1)] : List (Nat × Int)) hmean (by decide), except_bind_ok]
  rw [show aset ([(1, 1)] : List (Nat × Int)) 1 (aget ([(1, 1)] : List (Nat × Int)) 1 0 - 1) = ([(1, 0)] : List (Nat × Int)) from rfl]
  dsimp only
  rw [List.mergeSort_nil]
  rw [show admitFilter [] 0 = [] from rfl]
  simp only [List.foldl]
  rw [hlearn]
  rfl

/-- Frame 9 of the cool-off scenario: view 1 is off cool-off, so the
zero-cost candidate is applied, the counter is set to 3 and the baseline
and action frame are recorded. -/
theorem scen_f9 :
    scheduler_on_end_frame (scenarioEnv 9).agg (scenarioEnv 9).bytes
      ({ policy := scenarioPolicy, frame_idx := 9, cooldown := [(1, 0)], pre_baseline := [], action_frame := [(1, 5)] } : SchedState) =
      Except.ok (({ policy := scenarioPolicy, frame_idx := 9, cooldown := [(1, 3)], pre_baseline := [(1, 1000)], action_frame := [(1, 9)] } : SchedState), [cand30]) := by
  have hmean : (aggregate (List.replicate 9 sample1000) 3).mean_us = 1000 := by
    rw [aggScen_ge3 9 (by norm_num)]
  have happ : applyCand (scenarioEnv 9).agg ({ policy := scenarioPolicy, frame_idx := 9, cooldown := [(1, 0)], pre_baseline := [], action_frame := [(1, 5)] } : SchedState) cand30 = ({ policy := scenarioPolicy, frame_idx := 9, cooldown := [(1, 3)], pre_baseline := [(1, 1000)], action_frame := [(1, 9)] } : SchedState) := by
    simp only [applyCand]
    rw [show (scenarioEnv 9).agg cand30.v = aggregate (List.replicate 9 sample1000) 3 from rfl, aggScen_ge3 9 (by norm_num)]
    norm_num [cand30, aset, scenarioPolicy]
  unfold scheduler_on_end_frame
  dsimp only
  rw [collect_scen 9 ([(1, 0)] : List (Nat × Int)) hmean (planScen_ge3 9 (by norm_num)) (by decide), except_bind_ok]
  dsimp only
  rw [List.mergeSort_singleton, admit_cand30]
  simp only [List.foldl]
  rw [happ]
  rfl

/-- Frame 10 of the cool-off scenario: view 1 is on cool-off, so no
retile is applied and the counter drops by one. -/
theorem scen_f10 :
    scheduler_on_end_frame (scenarioEnv 10).agg (scenarioEnv 10).bytes
      ({ policy := scenarioPolicy, frame_idx := 10, cooldown := [(1, 3)], pre_baseline := [(1, 1000)], action_frame := [(1, 9)] } : SchedState) =
      Except.ok (({ policy := scenarioPolicy, frame_idx := 10, cooldown := [(1, 2)], pre_baseline := [(1, 1000)], action_frame := [(1, 9)] } : SchedState), []) := by
  have hmean : (aggregate (List.replicate 10 sample1000) 3).mean_us = 1000 := by
    rw [aggScen_ge3 10 (by norm_num)]
  have hlearn : learnStep (scenarioEnv 10).agg ({ policy := scenarioPolicy, frame_idx := 10, cooldown := [(1, 2)], pre_baseline := [(1, 1000)], action_frame := [(1, 9)] } : SchedState) (1, 9) = ({ policy := scenarioPolicy, frame_idx := 10, cooldown := [(1, 2)], pre_baseline := [(1, 1000)], action_frame := [(1, 9)] } : SchedState) :=
    learnStep_recent _ _ _ (by decide)
  unfold scheduler_on_end_frame
  dsimp only
  rw [collect_scen_cd 10 ([(1, 3)] : List (Nat × Int)) hmean (by decide), except_bind_ok]
  rw [show aset ([(1, 3)] : List (Nat × Int)) 1 (aget ([(1, 3)] : List (Nat × Int)) 1 0 - 1) = ([(1, 2)] : List (Nat × Int)) from rfl]
  dsimp only
  rw [List.mergeSort_nil]
  rw [show admitFilter [] 0 = [] from rfl]
  simp only [List.foldl]
  rw [hlearn]
  rfl

set_option maxHeartbeats 2000000 in
/-- The full ten-frame run of the cool-off scenario. -/
theorem scen_run :
    runFrames scenarioEnvs {} =
      Except.ok (({ policy := scenarioPolicy, frame_idx := 10, cooldown := [(1, 2)], pre_baseline := [(1, 1000)], action_frame := [(1, 9)] } : SchedState),
        [[cand30], [], [], [], [cand30], [], [], [], [cand30], []]) := by
  rw [show scenarioEnvs = [scenarioEnv 1, scenarioEnv 2, scenarioEnv 3, scenarioEnv 4,
    scenarioEnv 5, scenarioEnv 6, scenarioEnv 7, scenarioEnv 8, scenarioEnv 9,
    scenarioEnv 10] from rfl]
  refine runFrames_cons _ _ _ _ _ _ _ scen_f1 ?_
  refine runFrames_cons _ _ _ _ _ _ _ scen_f2 ?_
  refine runFrames_cons _ _ _ _ _ _ _ scen_f3 ?_
  refine runFrames_cons _ _ _ _ _ _ _ scen_f4 ?_
  refine runFrames_cons _ _ _ _ _ _ _ scen_f5 ?_
  refine runFrames_cons _ _ _ _ _ _ _ scen_f6 ?_
  refine runFrames_cons _ _ _ _ _ _ _ scen_f7 ?_
  refine runFrames_cons _ _ _ _ _ _ _ scen_f8 ?_
  refine runFrames_cons _ _ _ _ _ _ _ scen_f9 ?_
  refine runFrames_cons _ _ _ _ _ _ _ scen_f10 ?_
  rfl

/-- C4 (confirmed). (1) Generally: a view whose cool-off counter covers the
next `k` end-of-frame invocations has no retile applied to it in any of
those invocations — every candidate applied in every one of the `k` frames
names a different view. (2) The demo scenario: with the single always-true
trigger `{"mean_us >= 0", "RETILE_AOSOA", 128, 1.0}`, `cooloff_frames = 3`
and view 1 emitting `time_us = 1000` every frame, the per-frame applied
counts over 10 frames are `1,0,0,0,1,0,0,0,1,0` — retiles land exactly on
frames 1, 5 and 9. -/
theorem cooloff_no_retile :
    (∀ (envs : List FrameEnv) (st : SchedState) (v : Nat)
      (r : SchedState × List (List Cand)),
      (envs.length : Int) ≤ aget st.cooldown v 0 →
      runFrames envs st = Except.ok r →
      ∀ frame ∈ r.2, ∀ c ∈ frame, c.v ≠ v) ∧
    (runFrames scenarioEnvs {}).map (fun r => r.2.map List.length) =
      Except.ok [1, 0, 0, 0, 1, 0, 0, 0, 1, 0] := by
  refine ⟨fun envs st v r hk h => cooloff_k_frames envs st v r hk h, ?_⟩
  rw [scen_run]
  rfl

/-- Witness for C4's universally quantified part at a concrete run (the
empty run with the default state and view 1). -/
theorem cooloff_no_retile_witness :
    ∀ frame ∈ ([] : List (List Cand)), ∀ c ∈ frame, c.v ≠ 1 :=
  cooloff_no_retile.1 [] {} 1 ({}, []) (by decide) rfl

end DynSoA
